import Mathlib

/-!
# Verification of the EPCI historization engine (`historize.py`)

Shallow embedding of the versioning core of `historize.py`:
the record extractor (`extract_epci`), the version store operations
(`upsert`, the end-of-year closure inlined in `load_year`), the yearly
driver (`load_year`, modelled over an already-parsed row list, with
`itertools.groupby` embedded as `pyGroupby`), and the JSON export
(`dump_to` with the custom `JSONEncoder`).

Modelling conventions:
* The TinyDB in-memory table is a `List Epci` in insertion order;
  `doc_id`s are list positions, `db.insert` appends, `db.get` returns the
  first match, `db.update` with a condition rewrites every matching
  document and reports how many were touched.
* Python dictionary keys that the source only sometimes sets
  (`dateFin`, `raisonFin`, `predecesseurs`, `successeurs`) are modelled
  as `Option`/`List` fields defaulting to `none`/`[]`.
* Python exceptions (`IndexError` on an empty group, `ValueError` from
  `int(...)`) are modelled by `Option`-returning functions; `none`
  aborts the surrounding computation, as an uncaught exception aborts
  the run.
* Years are `Nat`; the program only ever uses years 1999-2019, well
  inside `datetime.date`'s 1..9999 range, so `year - 1` is ordinary
  subtraction on all reachable inputs.
* `int(...)` parsing is modelled for optional surrounding whitespace and
  an optional sign followed by decimal digits; Python's underscore
  grouping and non-ASCII digits are out of scope (never exercised here).
* `str.zfill(5)` is modelled as left zero-padding; the sign-aware corner
  of `zfill` is never exercised by INSEE commune codes.
-/

namespace Historize

/-- Calendar date in the role of Python `datetime.date`. -/
structure PyDate where
  year : Nat
  month : Nat
  day : Nat
deriving DecidableEq

/-- One parsed CSV row (`csv.DictReader` record) with the fields the
program reads. -/
structure Row where
  siren : String
  nom : String
  nature : String
  fiscalite : String
  ptot : String
  nb_com : String
  insee : String
deriving DecidableEq

/-- The `INSERTED, UPDATED = range(2)` result markers of `Store.upsert`. -/
inductive UpsertResult where
  | INSERTED
  | UPDATED
deriving DecidableEq

/-- The `LoadResult` dataclass of per-year statistics. -/
structure LoadResult where
  total : Nat := 0
  new : Nat := 0
  updated : Nat := 0
  ended : Nat := 0
deriving DecidableEq

/-- One stored EPCI version document, as built by `Store.extract_epci`
and later possibly extended by the update branches of `Store.upsert` /
`Store.load_year`. -/
structure Epci where
  id : String
  dateDebut : PyDate
  dateFin : Option PyDate := none
  siren : String
  nom : String
  nature : String
  fiscalite : String
  population : String
  membres : Finset String
  predecesseurs : List String := []
  successeurs : List String := []
  raisonFin : Option String := none
deriving DecidableEq

/-- The TinyDB `MemoryStorage` table, in `doc_id` (insertion) order. -/
abbrev Store := List Epci

/-- Python `str.zfill(5)` on the INSEE codes (no sign handling needed). -/
def pyZfill5 (s : String) : String :=
  if 5 ≤ s.length then s else String.mk (List.replicate (5 - s.length) '0') ++ s

/-- Characters Python `int(str)` strips around the number (ASCII
whitespace; exotic Unicode space forms are out of scope). -/
def isPySpace (c : Char) : Bool :=
  c.toNat = 32 || c.toNat = 9 || c.toNat = 10 || c.toNat = 13 || c.toNat = 11 || c.toNat = 12

/-- ASCII decimal digit test. -/
def isDigitChar (c : Char) : Bool := decide (48 ≤ c.toNat) && decide (c.toNat ≤ 57)

/-- Accumulate a decimal number; fails on the first non-digit. -/
def digitsToNat : List Char → Nat → Option Nat
  | [], acc => some acc
  | c :: rest, acc =>
    if isDigitChar c then digitsToNat rest (acc * 10 + (c.toNat - 48)) else none

/-- Nonempty all-digit sequence to its value. -/
def parseNat : List Char → Option Nat
  | [] => none
  | cs => digitsToNat cs 0

/-- Python `int(s)`: optional whitespace and sign, then decimal digits;
`none` models the `ValueError` that aborts the run (underscore grouping
and non-ASCII digits are out of scope). -/
def pyToInt (s : String) : Option Int :=
  let t := ((s.data.dropWhile isPySpace).reverse.dropWhile isPySpace).reverse
  match t with
  | '-' :: rest => (parseNat rest).map (fun n => -(n : Int))
  | '+' :: rest => (parseNat rest).map (fun n => (n : Int))
  | _ => (parseNat t).map (fun n => (n : Int))

/-- Python set symmetric difference `a ^ b`. -/
def setXor (a b : Finset String) : Finset String := (a \ b) ∪ (b \ a)

/-- The member set comprehension
`{r['insee'].zfill(5) for r in rows}` of `extract_epci`. -/
def membersOf (rows : List Row) : Finset String :=
  (rows.map (fun r => pyZfill5 r.insee)).toFinset

/-- `Store.extract_epci(year, rows)`: candidate version from one row
group. Returns the candidate together with the Boolean "member count
mismatch" warning flag (the source prints the warning and continues).
`none` models the `IndexError` on `rows[0]` for an empty group and the
`ValueError` from `int(row['nb_com'])`. -/
def extract_epci (year : Nat) (rows : List Row) : Option (Epci × Bool) :=
  match rows with
  | [] => none
  | row :: _ =>
    let membres := membersOf rows
    let epci : Epci :=
      { id := row.siren ++ "@" ++ toString year ++ "-01-01"
        dateDebut := ⟨year, 1, 1⟩
        siren := row.siren
        nom := row.nom
        nature := row.nature
        fiscalite := row.fiscalite
        population := row.ptot
        membres := membres }
    match pyToInt row.nb_com with
    | none => none
    | some n => some (epci, decide (n ≠ (membres.card : Int)))

/-- The TinyDB query
`(EPCI.siren == siren) & (~(EPCI.dateFin.exists()))`. -/
def openFor (k : String) (v : Epci) : Bool := v.siren == k && v.dateFin.isNone

/-- `db.get(query)`: position and value of the first matching document. -/
def findOpen : Store → String → Option (Nat × Epci)
  | [], _ => none
  | v :: vs, k =>
    if openFor k v then some (0, v)
    else (findOpen vs k).map (fun p => (p.1 + 1, p.2))

/-- `Store.upsert(year, siren, rows)`. The outer `Option` models the
exceptions of `extract_epci`; the inner `Option UpsertResult` is the
Python return value (`INSERTED`, `UPDATED`, or the implicit `None` of
the unchanged case). -/
def upsert (s : Store) (year : Nat) (siren : String) (rows : List Row) :
    Option (Option UpsertResult × Store) :=
  let cur := findOpen s siren
  (extract_epci year rows).map fun ew =>
    let epci := ew.1
    match cur with
    | none => (some .INSERTED, s ++ [epci])
    | some (i, current) =>
      if setXor current.membres epci.membres ≠ ∅ then
        let epci' := { epci with predecesseurs := [current.id] }
        (some .UPDATED,
          (s ++ [epci']).set i
            { current with
                successeurs := [epci'.id]
                dateFin := some ⟨year - 1, 12, 31⟩
                raisonFin := some "Changement de membres" })
      else (none, s)

/-- The closure condition
`~(EPCI.siren.one_of(sirens) | EPCI.dateFin.exists())` of the
end-of-year cleanup in `Store.load_year`. -/
def missingFrom (seen : Finset String) (v : Epci) : Bool :=
  !(decide (v.siren ∈ seen) || v.dateFin.isSome)

/-- The end-of-year cleanup of `Store.load_year` (`db.update({'dateFin':
date(year - 1, 12, 31)}, ...)`, the spec's `closeMissing`): closes every
open version whose siren was not seen this year and returns how many
documents were updated (`len(ids)`). -/
def closeMissing (s : Store) (year : Nat) (seen : Finset String) : Nat × Store :=
  (s.countP (missingFrom seen),
   s.map (fun v =>
     if missingFrom seen v then { v with dateFin := some ⟨year - 1, 12, 31⟩ } else v))

/-- `itertools.groupby(reader, key=lambda r: r['siren'])`: groups
maximal runs of consecutive rows sharing a siren; a siren occurring in
several non-adjacent runs yields several groups. -/
def pyGroupby : List Row → List (String × List Row)
  | [] => []
  | r :: rs =>
    match pyGroupby rs with
    | [] => [(r.siren, [r])]
    | (k, g) :: rest =>
      if r.siren == k then (r.siren, r :: g) :: rest
      else (r.siren, [r]) :: (k, g) :: rest

/-- The per-group loop of `Store.load_year`: upsert each group, count
insertions and updates, and accumulate the set of seen sirens. -/
def processGroups (year : Nat) :
    List (String × List Row) → Store → Finset String → LoadResult →
    Option (Store × Finset String × LoadResult)
  | [], s, seen, res => some (s, seen, res)
  | (k, g) :: rest, s, seen, res =>
    match upsert s year k g with
    | none => none
    | some (op, s') =>
      let res' : LoadResult :=
        { res with
            total := res.total + 1
            new := res.new + (if op = some .INSERTED then 1 else 0)
            updated := res.updated + (if op = some .UPDATED then 1 else 0) }
      processGroups year rest s' (insert k seen) res'

/-- `Store.load_year(year, rows)` over the already-parsed row sequence:
group rows, upsert each group, then close the missing sirens and record
the count as `ended`. -/
def load_year (s : Store) (year : Nat) (rows : List Row) :
    Option (LoadResult × Store) :=
  match processGroups year (pyGroupby rows) s ∅ {} with
  | none => none
  | some (s', seen, res) =>
    let c := closeMissing s' year seen
    some ({ res with ended := c.1 }, c.2)

/-- The year loop of `build_history`: process each year's rows in
sequence, aborting the whole run on the first failure. -/
def runAll : List (Nat × List Row) → Store → Option Store
  | [], s => some s
  | (y, rows) :: rest, s =>
    match load_year s y rows with
    | none => none
    | some (_, s') => runAll rest s'

/-! ## JSON export (`JSONEncoder` and `Store.dump_to`) -/

/-- Decimal digits of `n`, most significant first (Python `str(n)`),
with structural fuel (`n + 1` always suffices). -/
def natToDigitsAux : Nat → Nat → List Char
  | 0, _ => []
  | fuel + 1, n =>
    if n < 10 then [Char.ofNat (48 + n)]
    else natToDigitsAux fuel (n / 10) ++ [Char.ofNat (48 + n % 10)]

/-- Decimal digits of `n`, most significant first. -/
def natToDigits (n : Nat) : List Char := natToDigitsAux (n + 1) n

/-- Zero left-padding to width `k`. -/
def padZeros (k : Nat) (cs : List Char) : List Char :=
  List.replicate (k - cs.length) '0' ++ cs

/-- Python `date.isoformat()`: `YYYY-MM-DD` with zero padding. -/
def isoformat (d : PyDate) : String :=
  String.mk (padZeros 4 (natToDigits d.year) ++ '-' ::
    (padZeros 2 (natToDigits d.month) ++ '-' :: padZeros 2 (natToDigits d.day)))

/-- The `JSONEncoder.default` branch for sets: a Python set is emitted
as a list. CPython's iteration order is an unspecified but per-value
deterministic function of the set; the embedding fixes the
lexicographic order as that function. -/
def serializeSet (m : Finset String) : List String := m.sort (· ≤ ·)

/-- JSON values produced by the export (this program emits only
strings, arrays and objects). -/
inductive JVal where
  | str (s : String)
  | arr (elems : List JVal)
  | obj (fields : List (String × JVal))

/-- One serialized EntityVersion: the dict keys written by
`extract_epci`, plus the keys the update branches add when present
(absent dict keys are omitted, as in the Python documents; field order
of late-added keys is abstracted to a fixed order). -/
def encodeEpci (e : Epci) : JVal :=
  .obj (
    [("id", .str e.id),
     ("dateDebut", .str (isoformat e.dateDebut)),
     ("siren", .str e.siren),
     ("nom", .str e.nom),
     ("nature", .str e.nature),
     ("fiscalite", .str e.fiscalite),
     ("population", .str e.population),
     ("membres", .arr ((serializeSet e.membres).map .str))]
    ++ (if e.predecesseurs = [] then [] else
        [("predecesseurs", JVal.arr (e.predecesseurs.map .str))])
    ++ (if e.successeurs = [] then [] else
        [("successeurs", JVal.arr (e.successeurs.map .str))])
    ++ (match e.dateFin with
        | none => []
        | some d => [("dateFin", JVal.str (isoformat d))])
    ++ (match e.raisonFin with
        | none => []
        | some rf => [("raisonFin", JVal.str rf)]))

/-- `Store.dump_to`: `json.dump(self.db.all(), ...)` under `JSONEncoder`
— every document, in `doc_id` (insertion) order. -/
def dump_to (s : Store) : JVal := .arr (s.map encodeEpci)

/-- Recognizer, written from the spec's words, for an ISO-8601 calendar
date `YYYY-MM-DD`. -/
def isISO8601 (s : String) : Bool :=
  match s.data with
  | [y1, y2, y3, y4, h1, m1, m2, h2, d1, d2] =>
    isDigitChar y1 && isDigitChar y2 && isDigitChar y3 && isDigitChar y4 &&
    (h1 == '-') && isDigitChar m1 && isDigitChar m2 && (h2 == '-') &&
    isDigitChar d1 && isDigitChar d2
  | _ => false

/-! ## Store invariants (the spec's testable properties) -/

/-- For a given natural key at most one version in the store is open:
any two open positions for the same siren coincide. -/
def AtMostOneOpen (s : Store) : Prop :=
  ∀ (k : String) (i j : Fin s.length),
    openFor k (s.get i) = true → openFor k (s.get j) = true → (i : Nat) = (j : Nat)

/-- The synthetic ids of all versions, in store order. -/
def ids (s : Store) : List String := s.map (fun v => v.id)

/-- Every version id occurs once (holds on chronological runs, where at
most one version is created per `(siren, year)` pair). -/
def UniqueIds (s : Store) : Prop := (ids s).Nodup

/-- An open version has no successors yet. -/
def OpenNoSucc (s : Store) : Prop :=
  ∀ v ∈ s, v.dateFin = none → v.successeurs = []

/-- Predecessor/successor entries always reference other store
versions, never the owner itself. -/
def LinksClosed (s : Store) : Prop :=
  ∀ v ∈ s, (∀ x ∈ v.predecesseurs, x ∈ ids s ∧ x ≠ v.id) ∧
    (∀ x ∈ v.successeurs, x ∈ ids s ∧ x ≠ v.id)

/-- Link symmetry: for every pair of versions A and B (as store
positions), `A.successeurs = [B.id]` iff `B.predecesseurs = [A.id]`. -/
def LinkSym (s : Store) : Prop :=
  ∀ (i j : Fin s.length),
    (s.get i).successeurs = [(s.get j).id] ↔ (s.get j).predecesseurs = [(s.get i).id]

/-- The bundle of link invariants. -/
def WFLinks (s : Store) : Prop := UniqueIds s ∧ OpenNoSucc s ∧ LinksClosed s ∧ LinkSym s

/-! ## Basic lemmas about the store primitives -/

theorem setXor_eq_empty_iff (a b : Finset String) : setXor a b = ∅ ↔ a = b := by
  unfold setXor
  constructor
  · intro h
    apply Finset.ext
    intro x
    constructor <;> intro hx
    · by_contra hxb
      have hm : x ∈ (a \ b) ∪ (b \ a) :=
        Finset.mem_union_left _ (Finset.mem_sdiff.2 ⟨hx, hxb⟩)
      rw [h] at hm
      exact absurd hm (Finset.not_mem_empty x)
    · by_contra hxa
      have hm : x ∈ (a \ b) ∪ (b \ a) :=
        Finset.mem_union_right _ (Finset.mem_sdiff.2 ⟨hx, hxa⟩)
      rw [h] at hm
      exact absurd hm (Finset.not_mem_empty x)
  · intro h
    subst h
    simp

theorem missingFrom_iff (seen : Finset String) (v : Epci) :
    missingFrom seen v = true ↔ v.dateFin = none ∧ v.siren ∉ seen := by
  cases h : v.dateFin <;> simp [missingFrom, h, And.comm]

theorem missingFrom_eq (seen : Finset String) (v : Epci) :
    missingFrom seen v = (v.dateFin.isNone && !(decide (v.siren ∈ seen))) := by
  cases h : v.dateFin <;> simp [missingFrom, h]

theorem openFor_iff (k : String) (v : Epci) :
    openFor k v = true ↔ v.siren = k ∧ v.dateFin = none := by
  cases h : v.dateFin <;> simp [openFor, h]

theorem findOpen_none_iff (s : Store) (k : String) :
    findOpen s k = none ↔ ∀ v ∈ s, openFor k v = false := by
  induction s with
  | nil => simp [findOpen]
  | cons u us ih =>
    by_cases h : openFor k u = true
    · simp [findOpen, h]
    · have h' : openFor k u = false := by simpa using h
      simp [findOpen, h', Option.map_eq_none', ih]

theorem findOpen_some_spec (s : Store) (k : String) :
    ∀ i v, findOpen s k = some (i, v) →
      ∃ h : i < s.length, s.get ⟨i, h⟩ = v ∧ openFor k v = true := by
  induction s with
  | nil => intro i v h; simp [findOpen] at h
  | cons u us ih =>
    intro i v h
    by_cases hu : openFor k u = true
    · simp [findOpen, hu] at h
      obtain ⟨hi, hv⟩ := h
      subst hi; subst hv
      exact ⟨by simp, rfl, hu⟩
    · have hu' : openFor k u = false := by simpa using hu
      simp only [findOpen, hu', Bool.false_eq_true, if_false, Option.map_eq_some'] at h
      obtain ⟨⟨i', v'⟩, hfo, hh⟩ := h
      have hh1 : i' + 1 = i := congrArg Prod.fst hh
      have hh2 : v' = v := congrArg Prod.snd hh
      obtain ⟨hlt, hget, hopen⟩ := ih i' v' hfo
      subst hh1
      subst hh2
      exact ⟨by simpa using Nat.succ_lt_succ hlt, hget, hopen⟩

theorem findOpen_append_of_none (s t : Store) (k : String) (h : findOpen s k = none) :
    findOpen (s ++ t) k = (findOpen t k).map (fun p => (p.1 + s.length, p.2)) := by
  induction s with
  | nil =>
    simp only [List.nil_append, List.length_nil]
    cases hf : findOpen t k with
    | none => simp
    | some p => cases p; simp
  | cons u us ih =>
    have hu : openFor k u = false := by
      rw [findOpen_none_iff] at h
      exact h u (List.mem_cons_self u us)
    have hus : findOpen us k = none := by
      rw [findOpen_none_iff] at h ⊢
      intro v hv
      exact h v (List.mem_cons_of_mem u hv)
    rw [List.cons_append]
    simp only [findOpen, hu, Bool.false_eq_true, if_false]
    rw [ih hus]
    cases hf : findOpen t k with
    | none => rfl
    | some p =>
      cases p with
      | mk a b =>
        simp only [Option.map_some', Option.some.injEq, Prod.mk.injEq, List.length_cons]
        exact ⟨by omega, trivial⟩

theorem set_append_left (s t : Store) (i : Nat) (x : Epci) (h : i < s.length) :
    (s ++ t).set i x = s.set i x ++ t := by
  rw [List.set_append]
  simp [h]

/-! ## Branch characterizations of `upsert` -/

theorem upsert_of_no_open (s : Store) (year : Nat) (k : String) (rows : List Row)
    (epci : Epci) (w : Bool)
    (hext : extract_epci year rows = some (epci, w))
    (hfo : findOpen s k = none) :
    upsert s year k rows = some (some .INSERTED, s ++ [epci]) := by
  unfold upsert
  rw [hext, hfo]
  rfl

theorem upsert_of_unchanged (s : Store) (year : Nat) (k : String) (rows : List Row)
    (epci : Epci) (w : Bool) (i : Nat) (current : Epci)
    (hext : extract_epci year rows = some (epci, w))
    (hfo : findOpen s k = some (i, current))
    (heq : current.membres = epci.membres) :
    upsert s year k rows = some (none, s) := by
  unfold upsert
  rw [hext, hfo]
  have hx : setXor current.membres epci.membres = ∅ := (setXor_eq_empty_iff _ _).2 heq
  simp [hx]

theorem upsert_of_changed (s : Store) (year : Nat) (k : String) (rows : List Row)
    (epci : Epci) (w : Bool) (i : Nat) (current : Epci)
    (hext : extract_epci year rows = some (epci, w))
    (hfo : findOpen s k = some (i, current))
    (hne : current.membres ≠ epci.membres) :
    upsert s year k rows = some (some .UPDATED,
      (s.set i { current with
          successeurs := [epci.id]
          dateFin := some ⟨year - 1, 12, 31⟩
          raisonFin := some "Changement de membres" })
        ++ [{ epci with predecesseurs := [current.id] }]) := by
  obtain ⟨hi, _, _⟩ := findOpen_some_spec s k i current hfo
  unfold upsert
  rw [hext, hfo]
  have hx : setXor current.membres epci.membres ≠ ∅ := by
    intro h
    exact hne ((setXor_eq_empty_iff _ _).1 h)
  simp only [Option.map_some']
  rw [if_pos hx, set_append_left _ _ _ _ hi]

/-! ## Facts about `extract_epci` -/

theorem extract_epci_fields (year : Nat) (rows : List Row) (epci : Epci) (w : Bool)
    (h : extract_epci year rows = some (epci, w)) :
    epci.dateFin = none ∧ epci.predecesseurs = [] ∧ epci.successeurs = [] ∧
    epci.raisonFin = none ∧ epci.membres = membersOf rows ∧
    epci.dateDebut = ⟨year, 1, 1⟩ ∧
    ∃ r rest, rows = r :: rest ∧ epci.siren = r.siren ∧
      epci.id = r.siren ++ "@" ++ toString year ++ "-01-01" := by
  match rows with
  | [] => simp [extract_epci] at h
  | row :: rest =>
    simp only [extract_epci] at h
    cases hp : pyToInt row.nb_com with
    | none => rw [hp] at h; simp at h
    | some n =>
      rw [hp] at h
      simp only [Option.some.injEq] at h
      have h1 := congrArg Prod.fst h
      simp only at h1
      subst h1
      refine ⟨rfl, rfl, rfl, rfl, rfl, rfl, row, rest, rfl, rfl, rfl⟩

theorem upsert_some_extract (s : Store) (year : Nat) (k : String) (rows : List Row)
    (pr : Option UpsertResult × Store) (h : upsert s year k rows = some pr) :
    ∃ epci w, extract_epci year rows = some (epci, w) := by
  unfold upsert at h
  cases he : extract_epci year rows with
  | none => rw [he] at h; simp at h
  | some ew => exact ⟨ew.1, ew.2, by rw [← he]⟩

/-! ## The at-most-one-open-version-per-key invariant -/

theorem findOpen_eq_none (s : Store) (k : String)
    (h : ∀ i : Fin s.length, openFor k (s.get i) = false) : findOpen s k = none := by
  rw [findOpen_none_iff]
  intro v hv
  obtain ⟨n, hn, hget⟩ := List.mem_iff_getElem.1 hv
  have hh := h ⟨n, hn⟩
  rw [List.get_eq_getElem] at hh
  simpa [hget] using hh

theorem upsert_preserves_amoo (s : Store) (year : Nat) (k : String) (rows : List Row)
    (epci : Epci) (w : Bool) (r : Option UpsertResult) (s' : Store)
    (hext : extract_epci year rows = some (epci, w))
    (hsiren : epci.siren = k)
    (hup : upsert s year k rows = some (r, s'))
    (inv : AtMostOneOpen s) : AtMostOneOpen s' := by
  obtain ⟨hdf, _, _, _, _, _, _⟩ := extract_epci_fields year rows epci w hext
  have hopen_epci : ∀ k', openFor k' epci = true → k' = k := by
    intro k' hk'
    obtain ⟨h1, _⟩ := (openFor_iff k' epci).1 hk'
    rw [← h1, hsiren]
  have hopen_epci' : openFor k epci = true := (openFor_iff k epci).2 ⟨hsiren, hdf⟩
  cases hfo : findOpen s k with
  | none =>
    rw [upsert_of_no_open s year k rows epci w hext hfo] at hup
    have h2 := Option.some.inj hup
    have hs' : s' = s ++ [epci] := (congrArg Prod.snd h2).symm
    subst hs'
    intro k' i j hi hj
    rw [List.get_eq_getElem] at hi hj
    have hnone : ∀ n (hn : n < s.length), openFor k (s.get ⟨n, hn⟩) = false := by
      intro n hn
      rw [findOpen_none_iff] at hfo
      exact hfo _ (List.get_mem s n hn)
    have hlen : (s ++ [epci]).length = s.length + 1 := by simp
    rcases Nat.lt_or_ge (i : Nat) s.length with hi' | hi' <;>
      rcases Nat.lt_or_ge (j : Nat) s.length with hj' | hj'
    · rw [List.getElem_append_left hi'] at hi
      rw [List.getElem_append_left hj'] at hj
      have := inv k' ⟨i, hi'⟩ ⟨j, hj'⟩
        (by rw [List.get_eq_getElem]; exact hi) (by rw [List.get_eq_getElem]; exact hj)
      simpa using this
    · have hj'' : (j : Nat) = s.length := by have hv : (j : Nat) < s.length + 1 := (by simpa using j.2); omega
      rw [List.getElem_concat_length s epci _ hj''] at hj
      have hk' : k' = k := hopen_epci k' hj
      subst hk'
      rw [List.getElem_append_left hi'] at hi
      have := hnone (i : Nat) hi'
      rw [List.get_eq_getElem] at this
      rw [this] at hi
      exact absurd hi (by simp)
    · have hi'' : (i : Nat) = s.length := by have hv : (i : Nat) < s.length + 1 := (by simpa using i.2); omega
      rw [List.getElem_concat_length s epci _ hi''] at hi
      have hk' : k' = k := hopen_epci k' hi
      subst hk'
      rw [List.getElem_append_left hj'] at hj
      have := hnone (j : Nat) hj'
      rw [List.get_eq_getElem] at this
      rw [this] at hj
      exact absurd hj (by simp)
    · have hi'' : (i : Nat) = s.length := by have hv : (i : Nat) < s.length + 1 := (by simpa using i.2); omega
      have hj'' : (j : Nat) = s.length := by have hv : (j : Nat) < s.length + 1 := (by simpa using j.2); omega
      rw [hi'', hj'']
  | some p =>
    obtain ⟨i₀, current⟩ := p
    obtain ⟨hi₀, hget₀, hopen₀⟩ := findOpen_some_spec s k i₀ current hfo
    by_cases hmem : current.membres = epci.membres
    · rw [upsert_of_unchanged s year k rows epci w i₀ current hext hfo hmem] at hup
      have h2 := Option.some.inj hup
      have hs' : s' = s := (congrArg Prod.snd h2).symm
      subst hs'
      exact inv
    · rw [upsert_of_changed s year k rows epci w i₀ current hext hfo hmem] at hup
      have h2 := Option.some.inj hup
      have hs' : s' = (s.set i₀
          { current with
              successeurs := [epci.id]
              dateFin := some ⟨year - 1, 12, 31⟩
              raisonFin := some "Changement de membres" })
          ++ [{ epci with predecesseurs := [current.id] }] := (congrArg Prod.snd h2).symm
      subst hs'
      set cur' : Epci := { current with
          successeurs := [epci.id]
          dateFin := some ⟨year - 1, 12, 31⟩
          raisonFin := some "Changement de membres" } with hcur'
      set N : Epci := { epci with predecesseurs := [current.id] } with hN
      have hcur'_closed : ∀ k', openFor k' cur' = false := by
        intro k'
        simp [openFor, hcur']
      have hN_open : ∀ k', openFor k' N = true → k' = k := by
        intro k' hk'
        obtain ⟨h1, _⟩ := (openFor_iff k' N).1 hk'
        rw [← h1]
        exact hsiren
      have hsetlen : (s.set i₀ cur').length = s.length := by simp
      have hlen : ((s.set i₀ cur') ++ [N]).length = s.length + 1 := by simp
      have hsmall : ∀ n (hn : n < s.length) (hn2 : n < ((s.set i₀ cur') ++ [N]).length),
          ((s.set i₀ cur') ++ [N])[n] = if i₀ = n then cur' else s[n] := by
        intro n hn hn2
        rw [List.getElem_append_left (by rw [hsetlen]; exact hn)]
        exact List.getElem_set _
      intro k' i j hi hj
      rw [List.get_eq_getElem] at hi hj
      rcases Nat.lt_or_ge (i : Nat) s.length with hi' | hi' <;>
        rcases Nat.lt_or_ge (j : Nat) s.length with hj' | hj'
      · rw [hsmall (i : Nat) hi' i.2] at hi
        rw [hsmall (j : Nat) hj' j.2] at hj
        by_cases hii : i₀ = (i : Nat)
        · rw [if_pos hii] at hi
          rw [hcur'_closed k'] at hi
          exact absurd hi (by simp)
        · by_cases hjj : i₀ = (j : Nat)
          · rw [if_pos hjj] at hj
            rw [hcur'_closed k'] at hj
            exact absurd hj (by simp)
          · rw [if_neg hii] at hi
            rw [if_neg hjj] at hj
            have := inv k' ⟨i, hi'⟩ ⟨j, hj'⟩
              (by rw [List.get_eq_getElem]; exact hi) (by rw [List.get_eq_getElem]; exact hj)
            simpa using this
      · have hj'' : (j : Nat) = s.length := by have hv : (j : Nat) < s.length + 1 := (by simpa using j.2); omega
        rw [List.getElem_append_right (by rw [hsetlen]; omega)] at hj
        have hjN : ((j : Nat) - (s.set i₀ cur').length) = 0 := by rw [hsetlen]; omega
        simp only [hjN] at hj
        simp only [List.getElem_cons_zero] at hj
        have hk' : k' = k := hN_open k' hj
        subst hk'
        rw [hsmall (i : Nat) hi' i.2] at hi
        by_cases hii : i₀ = (i : Nat)
        · rw [if_pos hii] at hi
          rw [hcur'_closed k'] at hi
          exact absurd hi (by simp)
        · rw [if_neg hii] at hi
          have := inv k' ⟨i, hi'⟩ ⟨i₀, hi₀⟩
            (by rw [List.get_eq_getElem]; exact hi)
            (by rw [hget₀]; exact hopen₀)
          simp only at this
          exact absurd this.symm hii
      · have hi'' : (i : Nat) = s.length := by have hv : (i : Nat) < s.length + 1 := (by simpa using i.2); omega
        rw [List.getElem_append_right (by rw [hsetlen]; omega)] at hi
        have hiN : ((i : Nat) - (s.set i₀ cur').length) = 0 := by rw [hsetlen]; omega
        simp only [hiN] at hi
        simp only [List.getElem_cons_zero] at hi
        have hk' : k' = k := hN_open k' hi
        subst hk'
        rw [hsmall (j : Nat) hj' j.2] at hj
        by_cases hjj : i₀ = (j : Nat)
        · rw [if_pos hjj] at hj
          rw [hcur'_closed k'] at hj
          exact absurd hj (by simp)
        · rw [if_neg hjj] at hj
          have := inv k' ⟨j, hj'⟩ ⟨i₀, hi₀⟩
            (by rw [List.get_eq_getElem]; exact hj)
            (by rw [hget₀]; exact hopen₀)
          simp only at this
          exact absurd this.symm hjj
      · have hi'' : (i : Nat) = s.length := by have hv : (i : Nat) < s.length + 1 := (by simpa using i.2); omega
        have hj'' : (j : Nat) = s.length := by have hv : (j : Nat) < s.length + 1 := (by simpa using j.2); omega
        rw [hi'', hj'']

theorem closeMissing_preserves_amoo (s : Store) (year : Nat) (seen : Finset String)
    (inv : AtMostOneOpen s) : AtMostOneOpen (closeMissing s year seen).2 := by
  intro k i j hi hj
  simp only [closeMissing] at i j hi hj
  rw [List.get_eq_getElem] at hi hj
  have hopen_orig : ∀ (n : Nat) (hn : n < (s.map (fun v =>
      if missingFrom seen v then { v with dateFin := some ⟨year - 1, 12, 31⟩ } else v)).length)
      (hn' : n < s.length),
      openFor k ((s.map (fun v =>
        if missingFrom seen v then { v with dateFin := some ⟨year - 1, 12, 31⟩ } else v))[n]) = true →
      openFor k (s[n]) = true := by
    intro n hn hn' hh
    rw [List.getElem_map] at hh
    by_cases hm : missingFrom seen (s[n]) = true
    · rw [if_pos hm] at hh
      simp [openFor] at hh
    · rw [if_neg hm] at hh
      exact hh
  have hleni : (i : Nat) < s.length := by have := i.2; simpa using this
  have hlenj : (j : Nat) < s.length := by have := j.2; simpa using this
  have h1 := hopen_orig (i : Nat) i.2 hleni hi
  have h2 := hopen_orig (j : Nat) j.2 hlenj hj
  have := inv k ⟨i, hleni⟩ ⟨j, hlenj⟩
    (by rw [List.get_eq_getElem]; exact h1) (by rw [List.get_eq_getElem]; exact h2)
  simpa using this

/-! ## Well-formedness of `pyGroupby` output and the yearly loop -/

theorem pyGroupby_wf : ∀ (rows : List Row) (k : String) (g : List Row),
    (k, g) ∈ pyGroupby rows → g ≠ [] ∧ ∀ r ∈ g, r.siren = k := by
  intro rows
  induction rows with
  | nil => intro k g h; simp [pyGroupby] at h
  | cons r rs ih =>
    intro k g h
    simp only [pyGroupby] at h
    cases hg : pyGroupby rs with
    | nil =>
      rw [hg] at h
      simp only [List.mem_singleton, Prod.mk.injEq] at h
      obtain ⟨hk, hgg⟩ := h
      subst hk
      subst hgg
      refine ⟨by simp, ?_⟩
      intro x hx
      rw [List.mem_singleton] at hx
      subst hx
      rfl
    | cons p rest =>
      obtain ⟨k', g'⟩ := p
      rw [hg] at h
      dsimp only at h
      by_cases hrk : (r.siren == k') = true
      · rw [if_pos hrk] at h
        have hkk : r.siren = k' := by simpa using hrk
        rcases List.mem_cons.1 h with hh | hh
        · obtain ⟨hk, hgg⟩ := Prod.ext_iff.1 hh
          subst hk
          subst hgg
          have hih := ih k' g' (by rw [hg]; exact List.mem_cons_self _ _)
          refine ⟨by simp, ?_⟩
          intro x hx
          rcases List.mem_cons.1 hx with hx | hx
          · subst hx; rfl
          · rw [hih.2 x hx, hkk]
        · exact ih k g (by rw [hg]; exact List.mem_cons_of_mem _ hh)
      · rw [if_neg hrk] at h
        rcases List.mem_cons.1 h with hh | hh
        · obtain ⟨hk, hgg⟩ := Prod.ext_iff.1 hh
          subst hk
          subst hgg
          refine ⟨by simp, ?_⟩
          intro x hx
          rw [List.mem_singleton] at hx
          subst hx
          rfl
        · exact ih k g (by rw [hg]; exact hh)

theorem processGroups_preserves_amoo (year : Nat) :
    ∀ (gs : List (String × List Row)) (s : Store) (seen : Finset String)
      (res : LoadResult) (out : Store × Finset String × LoadResult),
      (∀ p ∈ gs, p.2 ≠ [] ∧ ∀ r ∈ p.2, r.siren = p.1) →
      processGroups year gs s seen res = some out →
      AtMostOneOpen s → AtMostOneOpen out.1 := by
  intro gs
  induction gs with
  | nil =>
    intro s seen res out hwf h inv
    simp only [processGroups, Option.some.injEq] at h
    rw [← h]
    exact inv
  | cons p rest ih =>
    obtain ⟨k, g⟩ := p
    intro s seen res out hwf h inv
    simp only [processGroups] at h
    cases hup : upsert s year k g with
    | none => rw [hup] at h; simp at h
    | some pr =>
      obtain ⟨op, s'⟩ := pr
      rw [hup] at h
      obtain ⟨epci, w, hext⟩ := upsert_some_extract s year k g (op, s') hup
      have hwf0 := hwf (k, g) (List.mem_cons_self _ _)
      have hsiren : epci.siren = k := by
        obtain ⟨_, _, _, _, _, _, r0, rest0, hrows, hs, _⟩ :=
          extract_epci_fields year g epci w hext
        rw [hs]
        exact hwf0.2 r0 (by rw [hrows]; exact List.mem_cons_self _ _)
      have inv' : AtMostOneOpen s' :=
        upsert_preserves_amoo s year k g epci w op s' hext hsiren hup inv
      exact ih s' (insert k seen) _ out
        (fun q hq => hwf q (List.mem_cons_of_mem _ hq)) h inv'

theorem load_year_preserves_amoo (s : Store) (year : Nat) (rows : List Row)
    (res : LoadResult) (s' : Store)
    (h : load_year s year rows = some (res, s'))
    (inv : AtMostOneOpen s) : AtMostOneOpen s' := by
  simp only [load_year] at h
  cases hp : processGroups year (pyGroupby rows) s ∅ {} with
  | none => rw [hp] at h; simp at h
  | some out =>
    obtain ⟨s₁, seen, res₁⟩ := out
    rw [hp] at h
    simp only [Option.some.injEq] at h
    have hs' : (closeMissing s₁ year seen).2 = s' := congrArg Prod.snd h
    have inv₁ : AtMostOneOpen s₁ :=
      processGroups_preserves_amoo year (pyGroupby rows) s ∅ {} (s₁, seen, res₁)
        (by
          intro p hp'
          obtain ⟨k, g⟩ := p
          exact pyGroupby_wf rows k g hp')
        hp inv
    rw [← hs']
    exact closeMissing_preserves_amoo s₁ year seen inv₁

theorem runAll_preserves_amoo : ∀ (runs : List (Nat × List Row)) (s₀ s : Store),
    AtMostOneOpen s₀ → runAll runs s₀ = some s → AtMostOneOpen s := by
  intro runs
  induction runs with
  | nil =>
    intro s₀ s inv h
    simp only [runAll, Option.some.injEq] at h
    rw [← h]
    exact inv
  | cons yr rest ih =>
    obtain ⟨y, rows⟩ := yr
    intro s₀ s inv h
    simp only [runAll] at h
    cases hl : load_year s₀ y rows with
    | none => rw [hl] at h; simp at h
    | some out =>
      obtain ⟨res, s₁⟩ := out
      rw [hl] at h
      exact ih s₁ s (load_year_preserves_amoo s₀ y rows res s₁ hl inv) h

/-! ## Link-invariant preservation lemmas -/

theorem ids_append (s t : Store) : ids (s ++ t) = ids s ++ ids t := by
  simp [ids]

theorem mem_ids_of_mem {v : Epci} {s : Store} (h : v ∈ s) : v.id ∈ ids s :=
  List.mem_map_of_mem _ h

theorem ids_length (s : Store) : (ids s).length = s.length := by
  simp [ids]

theorem ids_getElem (s : Store) (n : Nat) (hn : n < s.length)
    (hn' : n < (ids s).length) : (ids s).get ⟨n, hn'⟩ = (s.get ⟨n, hn⟩).id := by
  simp [ids, List.get_eq_getElem, List.getElem_map]

theorem id_inj_of_unique (s : Store) (hu : UniqueIds s) (a b : Nat)
    (ha : a < s.length) (hb : b < s.length)
    (h : (s.get ⟨a, ha⟩).id = (s.get ⟨b, hb⟩).id) : a = b := by
  have ha' : a < (ids s).length := by rw [ids_length]; exact ha
  have hb' : b < (ids s).length := by rw [ids_length]; exact hb
  have heq : (ids s).get ⟨a, ha'⟩ = (ids s).get ⟨b, hb'⟩ := by
    rw [ids_getElem s a ha ha', ids_getElem s b hb hb', h]
  have := (hu.get_inj_iff).1 heq
  simpa using this

theorem wf_append_fresh (s : Store) (N : Epci)
    (hpred : N.predecesseurs = []) (hsucc : N.successeurs = [])
    (hfresh : N.id ∉ ids s) (hwf : WFLinks s) : WFLinks (s ++ [N]) := by
  obtain ⟨hu, ho, hc, hsym⟩ := hwf
  refine ⟨?_, ?_, ?_, ?_⟩
  · unfold UniqueIds
    rw [ids_append, List.nodup_append]
    refine ⟨hu, by simp [ids], ?_⟩
    intro a ha hb
    have hb' : a = N.id := by simpa [ids] using hb
    exact hfresh (hb' ▸ ha)
  · intro v hv hvdf
    rcases List.mem_append.1 hv with h | h
    · exact ho v h hvdf
    · rw [List.mem_singleton] at h
      subst h
      exact hsucc
  · intro v hv
    rcases List.mem_append.1 hv with h | h
    · obtain ⟨h1, h2⟩ := hc v h
      constructor
      · intro x hx
        obtain ⟨hm, hne⟩ := h1 x hx
        exact ⟨by rw [ids_append]; exact List.mem_append_left _ hm, hne⟩
      · intro x hx
        obtain ⟨hm, hne⟩ := h2 x hx
        exact ⟨by rw [ids_append]; exact List.mem_append_left _ hm, hne⟩
    · rw [List.mem_singleton] at h
      subst h
      rw [hpred, hsucc]
      exact ⟨by intro x hx; simp at hx, by intro x hx; simp at hx⟩
  · intro i j
    rw [List.get_eq_getElem, List.get_eq_getElem]
    rcases Nat.lt_or_ge (i : Nat) s.length with hi' | hi' <;>
      rcases Nat.lt_or_ge (j : Nat) s.length with hj' | hj'
    · rw [List.getElem_append_left hi', List.getElem_append_left hj']
      have hs := hsym ⟨i, hi'⟩ ⟨j, hj'⟩
      rw [List.get_eq_getElem, List.get_eq_getElem] at hs
      exact hs
    · have hj'' : (j : Nat) = s.length := by
        have hv : (j : Nat) < s.length + 1 := (by simpa using j.2); omega
      rw [List.getElem_append_left hi', List.getElem_concat_length s N _ hj'']
      apply iff_of_false
      · intro hL
        have hmem : N.id ∈ (s.get ⟨(i : Nat), hi'⟩).successeurs := by
          rw [List.get_eq_getElem, hL]; simp
        obtain ⟨hin, _⟩ := (hc _ (List.get_mem s _ _)).2 N.id hmem
        exact hfresh hin
      · intro hR
        rw [hpred] at hR
        simp at hR
    · have hi'' : (i : Nat) = s.length := by
        have hv : (i : Nat) < s.length + 1 := (by simpa using i.2); omega
      rw [List.getElem_concat_length s N _ hi'', List.getElem_append_left hj']
      apply iff_of_false
      · intro hL
        rw [hsucc] at hL
        simp at hL
      · intro hR
        have hmem : N.id ∈ (s.get ⟨(j : Nat), hj'⟩).predecesseurs := by
          rw [List.get_eq_getElem, hR]; simp
        obtain ⟨hin, _⟩ := (hc _ (List.get_mem s _ _)).1 N.id hmem
        exact hfresh hin
    · have hi'' : (i : Nat) = s.length := by
        have hv : (i : Nat) < s.length + 1 := (by simpa using i.2); omega
      have hj'' : (j : Nat) = s.length := by
        have hv : (j : Nat) < s.length + 1 := (by simpa using j.2); omega
      rw [List.getElem_concat_length s N _ hi'', List.getElem_concat_length s N _ hj'']
      apply iff_of_false
      · intro hL
        rw [hsucc] at hL
        simp at hL
      · intro hR
        rw [hpred] at hR
        simp at hR

theorem ids_set_same (s : Store) (i : Nat) (hi : i < s.length) (x : Epci)
    (hx : x.id = (s.get ⟨i, hi⟩).id) : ids (s.set i x) = ids s := by
  apply List.ext_getElem
  · simp [ids]
  · intro n h1 h2
    simp only [ids, List.getElem_map, List.getElem_set]
    by_cases hc : i = n
    · rw [if_pos hc]
      subst hc
      rw [hx, List.get_eq_getElem]
    · rw [if_neg hc]

theorem wf_set_append (s : Store) (i : Nat) (hi : i < s.length)
    (cur N : Epci) (d : PyDate) (rs : Option String)
    (hcur : s.get ⟨i, hi⟩ = cur) (hopen : cur.dateFin = none)
    (hNpred : N.predecesseurs = [cur.id]) (hNsucc : N.successeurs = [])
    (hfresh : N.id ∉ ids s) (hwf : WFLinks s) :
    WFLinks ((s.set i
      { cur with
          successeurs := [N.id]
          dateFin := some d
          raisonFin := rs }) ++ [N]) := by
  obtain ⟨hu, ho, hc, hsym⟩ := hwf
  set cur' : Epci :=
    { cur with
        successeurs := [N.id]
        dateFin := some d
        raisonFin := rs } with hcur'
  have hcurmem : cur ∈ s := by rw [← hcur]; exact List.get_mem s i hi
  have hcursucc : cur.successeurs = [] := ho cur hcurmem hopen
  have hcurid : cur.id ∈ ids s := mem_ids_of_mem hcurmem
  have hNne : N.id ≠ cur.id := fun h => hfresh (h ▸ hcurid)
  have hids : ids (s.set i cur') = ids s :=
    ids_set_same s i hi cur' (by rw [hcur])
  have hsetlen : (s.set i cur').length = s.length := by simp
  have hidsS : ids ((s.set i cur') ++ [N]) = ids s ++ [N.id] := by
    rw [ids_append, hids]
    simp [ids]
  refine ⟨?_, ?_, ?_, ?_⟩
  · unfold UniqueIds
    rw [hidsS, List.nodup_append]
    refine ⟨hu, by simp, ?_⟩
    intro a ha hb
    have hb' : a = N.id := by simpa using hb
    exact hfresh (hb' ▸ ha)
  · intro v hv hvdf
    rcases List.mem_append.1 hv with h | h
    · rcases List.mem_or_eq_of_mem_set h with h2 | h2
      · exact ho v h2 hvdf
      · subst h2
        exact Option.noConfusion hvdf
    · rw [List.mem_singleton] at h
      subst h
      exact hNsucc
  · intro v hv
    rcases List.mem_append.1 hv with h | h
    · rcases List.mem_or_eq_of_mem_set h with h2 | h2
      · obtain ⟨h1, h2'⟩ := hc v h2
        constructor
        · intro x hx
          obtain ⟨hm, hne⟩ := h1 x hx
          exact ⟨by rw [hidsS]; exact List.mem_append_left _ hm, hne⟩
        · intro x hx
          obtain ⟨hm, hne⟩ := h2' x hx
          exact ⟨by rw [hidsS]; exact List.mem_append_left _ hm, hne⟩
      · subst h2
        constructor
        · intro x hx
          obtain ⟨hm, hne⟩ := (hc cur hcurmem).1 x hx
          exact ⟨by rw [hidsS]; exact List.mem_append_left _ hm, hne⟩
        · intro x hx
          have hx' : x = N.id := by simpa [hcur'] using hx
          subst hx'
          refine ⟨by rw [hidsS]; exact List.mem_append_right _ (by simp), ?_⟩
          intro he
          exact hNne he
    · rw [List.mem_singleton] at h
      subst h
      constructor
      · intro x hx
        rw [hNpred, List.mem_singleton] at hx
        subst hx
        exact ⟨by rw [hidsS]; exact List.mem_append_left _ hcurid,
          fun he => hNne he.symm⟩
      · intro x hx
        rw [hNsucc] at hx
        simp at hx
  · intro a b
    rw [List.get_eq_getElem, List.get_eq_getElem]
    rcases Nat.lt_or_ge (a : Nat) s.length with ha' | ha' <;>
      rcases Nat.lt_or_ge (b : Nat) s.length with hb' | hb'
    · rw [List.getElem_append_left (by rw [hsetlen]; exact ha'),
        List.getElem_append_left (by rw [hsetlen]; exact hb'),
        List.getElem_set, List.getElem_set]
      by_cases hai : i = (a : Nat) <;> by_cases hbi : i = (b : Nat)
      · rw [if_pos hai, if_pos hbi]
        apply iff_of_false
        · intro hL
          have hL' : N.id = cur.id := by simpa [hcur'] using hL
          exact hNne hL'
        · intro hR
          have hR' : cur.predecesseurs = [cur.id] := hR
          have hmem : cur.id ∈ cur.predecesseurs := by rw [hR']; simp
          obtain ⟨_, hne⟩ := (hc cur hcurmem).1 cur.id hmem
          exact hne rfl
      · rw [if_pos hai, if_neg hbi]
        apply iff_of_false
        · intro hL
          have hL' : N.id = (s.get ⟨(b : Nat), hb'⟩).id := by
            rw [List.get_eq_getElem]
            simpa [hcur'] using hL
          apply hfresh
          rw [hL']
          exact mem_ids_of_mem (List.get_mem s _ _)
        · intro hR
          have hsymb := hsym ⟨i, hi⟩ ⟨b, hb'⟩
          rw [hcur] at hsymb
          have hR' : (s.get ⟨(b : Nat), hb'⟩).predecesseurs = [cur.id] := by
            rw [List.get_eq_getElem]
            exact hR
          have hfrom := hsymb.2 hR'
          rw [hcursucc] at hfrom
          simp at hfrom
      · rw [if_neg hai, if_pos hbi]
        have hsymab := hsym ⟨a, ha'⟩ ⟨i, hi⟩
        rw [hcur] at hsymab
        show (s.get ⟨(a : Nat), ha'⟩).successeurs = [cur.id] ↔
          cur.predecesseurs = [(s.get ⟨(a : Nat), ha'⟩).id]
        exact hsymab
      · rw [if_neg hai, if_neg hbi]
        have h2 := hsym ⟨a, ha'⟩ ⟨b, hb'⟩
        rw [List.get_eq_getElem, List.get_eq_getElem] at h2
        exact h2
    · have hb'' : (b : Nat) = (s.set i cur').length := by
        rw [hsetlen]
        have hv : (b : Nat) < s.length + 1 := (by simpa using b.2); omega
      rw [List.getElem_append_left (by rw [hsetlen]; exact ha'),
        List.getElem_concat_length _ N _ hb'', List.getElem_set]
      by_cases hai : i = (a : Nat)
      · rw [if_pos hai]
        exact iff_of_true rfl hNpred
      · rw [if_neg hai]
        apply iff_of_false
        · intro hL
          have hmem : N.id ∈ (s.get ⟨(a : Nat), ha'⟩).successeurs := by
            rw [List.get_eq_getElem, hL]
            simp
          obtain ⟨hin, _⟩ := (hc _ (List.get_mem s _ _)).2 N.id hmem
          exact hfresh hin
        · intro hR
          rw [hNpred] at hR
          have hR' : cur.id = (s.get ⟨(a : Nat), ha'⟩).id := by
            rw [List.get_eq_getElem]
            simpa using hR
          have heq := id_inj_of_unique s hu i (a : Nat) hi ha' (by rw [hcur]; exact hR')
          exact hai heq
    · have ha'' : (a : Nat) = (s.set i cur').length := by
        rw [hsetlen]
        have hv : (a : Nat) < s.length + 1 := (by simpa using a.2); omega
      rw [List.getElem_concat_length _ N _ ha'',
        List.getElem_append_left (by rw [hsetlen]; exact hb'), List.getElem_set]
      by_cases hbi : i = (b : Nat)
      · rw [if_pos hbi]
        apply iff_of_false
        · intro hL
          rw [hNsucc] at hL
          simp at hL
        · intro hR
          have hR' : cur.predecesseurs = [N.id] := hR
          have hmem : N.id ∈ cur.predecesseurs := by rw [hR']; simp
          obtain ⟨hin, _⟩ := (hc cur hcurmem).1 N.id hmem
          exact hfresh hin
      · rw [if_neg hbi]
        apply iff_of_false
        · intro hL
          rw [hNsucc] at hL
          simp at hL
        · intro hR
          have hmem : N.id ∈ (s.get ⟨(b : Nat), hb'⟩).predecesseurs := by
            rw [List.get_eq_getElem, hR]
            simp
          obtain ⟨hin, _⟩ := (hc _ (List.get_mem s _ _)).1 N.id hmem
          exact hfresh hin
    · have ha'' : (a : Nat) = (s.set i cur').length := by
        rw [hsetlen]
        have hv : (a : Nat) < s.length + 1 := (by simpa using a.2); omega
      have hb'' : (b : Nat) = (s.set i cur').length := by
        rw [hsetlen]
        have hv : (b : Nat) < s.length + 1 := (by simpa using b.2); omega
      rw [List.getElem_concat_length _ N _ ha'', List.getElem_concat_length _ N _ hb'']
      apply iff_of_false
      · intro hL
        rw [hNsucc] at hL
        simp at hL
      · intro hR
        rw [hNpred] at hR
        have : cur.id = N.id := by simpa using hR
        exact hNne this.symm

theorem closeMissing_preserves_wf (s : Store) (year : Nat) (seen : Finset String)
    (hwf : WFLinks s) : WFLinks (closeMissing s year seen).2 := by
  obtain ⟨hu, ho, hc, hsym⟩ := hwf
  have hrepr : (closeMissing s year seen).2 = s.map (fun v =>
    if missingFrom seen v then { v with dateFin := some ⟨year - 1, 12, 31⟩ } else v) := rfl
  rw [hrepr]
  set f : Epci → Epci := fun v =>
    if missingFrom seen v then { v with dateFin := some ⟨year - 1, 12, 31⟩ } else v with hf
  have hproj : ∀ v : Epci, (f v).id = v.id ∧ (f v).predecesseurs = v.predecesseurs ∧
      (f v).successeurs = v.successeurs := by
    intro v
    by_cases hm : missingFrom seen v = true
    · simp [hf, hm]
    · simp [hf, hm]
  have hids : ids (s.map f) = ids s := by
    unfold ids
    rw [List.map_map]
    apply List.ext_getElem
    · simp
    · intro n h1 h2
      simp only [List.getElem_map, Function.comp_apply]
      exact (hproj _).1
  refine ⟨?_, ?_, ?_, ?_⟩
  · unfold UniqueIds
    rw [hids]
    exact hu
  · intro v' hv' hdf
    obtain ⟨v, hv, hfv⟩ := List.mem_map.1 hv'
    by_cases hm : missingFrom seen v = true
    · rw [← hfv] at hdf
      simp [hf, hm] at hdf
    · have hfv' : v' = v := by rw [← hfv]; simp [hf, hm]
      rw [hfv']
      exact ho v hv (hfv' ▸ hdf)
  · intro v' hv'
    obtain ⟨v, hv, hfv⟩ := List.mem_map.1 hv'
    obtain ⟨h1, h2⟩ := hc v hv
    obtain ⟨hid, hpred, hsucc⟩ := hproj v
    rw [← hfv]
    constructor
    · intro x hx
      rw [hpred] at hx
      obtain ⟨hm, hne⟩ := h1 x hx
      exact ⟨by rw [hids]; exact hm, by rw [hid]; exact hne⟩
    · intro x hx
      rw [hsucc] at hx
      obtain ⟨hm, hne⟩ := h2 x hx
      exact ⟨by rw [hids]; exact hm, by rw [hid]; exact hne⟩
  · intro i j
    rw [List.get_eq_getElem, List.get_eq_getElem]
    have hi' : (i : Nat) < s.length := by simpa using i.2
    have hj' : (j : Nat) < s.length := by simpa using j.2
    rw [List.getElem_map, List.getElem_map]
    rw [(hproj _).2.2, (hproj _).1, (hproj _).2.1, (hproj _).1]
    have h2 := hsym ⟨i, hi'⟩ ⟨j, hj'⟩
    rw [List.get_eq_getElem, List.get_eq_getElem] at h2
    exact h2

theorem mem_set_of_ne_get (s : Store) (i : Nat) (hi : i < s.length) (x v : Epci)
    (hv : v ∈ s) (hne : v ≠ s.get ⟨i, hi⟩) : v ∈ s.set i x := by
  obtain ⟨n, hn, hget⟩ := List.mem_iff_getElem.1 hv
  have hni : n ≠ i := by
    intro h
    subst h
    apply hne
    rw [← hget, List.get_eq_getElem]
  rw [List.mem_iff_getElem]
  refine ⟨n, by simpa using hn, ?_⟩
  rw [List.getElem_set, if_neg (fun h => hni h.symm)]
  exact hget

theorem upsert_keeps_closed (s : Store) (year : Nat) (k : String) (rows : List Row)
    (r : Option UpsertResult) (s' : Store)
    (hup : upsert s year k rows = some (r, s')) :
    ∀ v ∈ s, v.dateFin ≠ none → v ∈ s' := by
  intro v hv hvdf
  cases hext : extract_epci year rows with
  | none =>
    unfold upsert at hup
    rw [hext] at hup
    simp at hup
  | some ew =>
    obtain ⟨epci, w⟩ := ew
    cases hfo : findOpen s k with
    | none =>
      rw [upsert_of_no_open s year k rows epci w hext hfo] at hup
      have hs' : s' = s ++ [epci] := (congrArg Prod.snd (Option.some.inj hup)).symm
      rw [hs']
      exact List.mem_append_left _ hv
    | some p =>
      obtain ⟨i₀, current⟩ := p
      obtain ⟨hi₀, hget₀, hopen₀⟩ := findOpen_some_spec s k i₀ current hfo
      by_cases hmem : current.membres = epci.membres
      · rw [upsert_of_unchanged s year k rows epci w i₀ current hext hfo hmem] at hup
        have hs' : s' = s := (congrArg Prod.snd (Option.some.inj hup)).symm
        rw [hs']
        exact hv
      · rw [upsert_of_changed s year k rows epci w i₀ current hext hfo hmem] at hup
        have hs' : s' = (s.set i₀ { current with
            successeurs := [epci.id]
            dateFin := some ⟨year - 1, 12, 31⟩
            raisonFin := some "Changement de membres" })
          ++ [{ epci with predecesseurs := [current.id] }] :=
          (congrArg Prod.snd (Option.some.inj hup)).symm
        rw [hs']
        apply List.mem_append_left
        apply mem_set_of_ne_get s i₀ hi₀ _ v hv
        intro he
        rw [hget₀] at he
        obtain ⟨_, hdfn⟩ := (openFor_iff k current).1 hopen₀
        rw [he] at hvdf
        exact hvdf hdfn

theorem closeMissing_keeps_closed (s : Store) (year : Nat) (seen : Finset String) :
    ∀ v ∈ s, v.dateFin ≠ none → v ∈ (closeMissing s year seen).2 := by
  intro v hv hvdf
  have hm : missingFrom seen v = false := by
    rw [missingFrom_eq]
    cases hdl : v.dateFin with
    | none => exact absurd hdl hvdf
    | some d => simp
  have hrepr : (closeMissing s year seen).2 = s.map (fun u =>
    if missingFrom seen u then { u with dateFin := some ⟨year - 1, 12, 31⟩ } else u) := rfl
  rw [hrepr]
  have hfix : (if missingFrom seen v then
      { v with dateFin := some ⟨year - 1, 12, 31⟩ } else v) = v := by
    rw [hm]
    simp
  rw [← hfix]
  exact List.mem_map_of_mem _ hv

theorem upsert_preserves_wf (s : Store) (year : Nat) (k : String) (rows : List Row)
    (epci : Epci) (w : Bool) (r : Option UpsertResult) (s' : Store)
    (hext : extract_epci year rows = some (epci, w))
    (hfresh : epci.id ∉ ids s)
    (hup : upsert s year k rows = some (r, s'))
    (hwf : WFLinks s) : WFLinks s' := by
  obtain ⟨hdf, hpred, hsucc, _, _, _, _⟩ := extract_epci_fields year rows epci w hext
  cases hfo : findOpen s k with
  | none =>
    rw [upsert_of_no_open s year k rows epci w hext hfo] at hup
    have hs' : s' = s ++ [epci] := (congrArg Prod.snd (Option.some.inj hup)).symm
    rw [hs']
    exact wf_append_fresh s epci hpred hsucc hfresh hwf
  | some p =>
    obtain ⟨i₀, current⟩ := p
    obtain ⟨hi₀, hget₀, hopen₀⟩ := findOpen_some_spec s k i₀ current hfo
    by_cases hmem : current.membres = epci.membres
    · rw [upsert_of_unchanged s year k rows epci w i₀ current hext hfo hmem] at hup
      have hs' : s' = s := (congrArg Prod.snd (Option.some.inj hup)).symm
      rw [hs']
      exact hwf
    · rw [upsert_of_changed s year k rows epci w i₀ current hext hfo hmem] at hup
      have hs' : s' = (s.set i₀ { current with
          successeurs := [epci.id]
          dateFin := some ⟨year - 1, 12, 31⟩
          raisonFin := some "Changement de membres" })
        ++ [{ epci with predecesseurs := [current.id] }] :=
        (congrArg Prod.snd (Option.some.inj hup)).symm
      rw [hs']
      obtain ⟨_, hdfn⟩ := (openFor_iff k current).1 hopen₀
      exact wf_set_append s i₀ hi₀ current
        { epci with predecesseurs := [current.id] } ⟨year - 1, 12, 31⟩
        (some "Changement de membres") hget₀ hdfn rfl hsucc hfresh
        ⟨(by exact hwf.1), hwf.2.1, hwf.2.2.1, hwf.2.2.2⟩

/-! ## Claim C5 -/

/-- Claim C5, counterexample: upserting the same key three times within
one year (legal store operations, reachable from one year's input when a
siren occurs in non-adjacent row groups) produces colliding version ids
`siren@year-01-01`, after which link symmetry fails — the middle version
lists the first version's id among its successors while the first
version's predecessors stay empty. -/
theorem link_symmetry_cex :
    upsert [] 2000 "200000001"
        [{ siren := "200000001", nom := "A", nature := "CC", fiscalite := "4",
           ptot := "10", nb_com := "1", insee := "1" }] =
      some (some .INSERTED,
        [{ id := "200000001@2000-01-01", dateDebut := ⟨2000, 1, 1⟩,
           siren := "200000001", nom := "A", nature := "CC", fiscalite := "4",
           population := "10", membres := {"00001"} }]) ∧
    upsert
        [{ id := "200000001@2000-01-01", dateDebut := ⟨2000, 1, 1⟩,
           siren := "200000001", nom := "A", nature := "CC", fiscalite := "4",
           population := "10", membres := {"00001"} }]
        2000 "200000001"
        [{ siren := "200000001", nom := "A", nature := "CC", fiscalite := "4",
           ptot := "10", nb_com := "1", insee := "2" }] =
      some (some .UPDATED,
        [{ id := "200000001@2000-01-01", dateDebut := ⟨2000, 1, 1⟩,
           dateFin := some ⟨1999, 12, 31⟩, siren := "200000001", nom := "A",
           nature := "CC", fiscalite := "4", population := "10",
           membres := {"00001"}, successeurs := ["200000001@2000-01-01"],
           raisonFin := some "Changement de membres" },
         { id := "200000001@2000-01-01", dateDebut := ⟨2000, 1, 1⟩,
           siren := "200000001", nom := "A", nature := "CC", fiscalite := "4",
           population := "10", membres := {"00002"},
           predecesseurs := ["200000001@2000-01-01"] }]) ∧
    upsert
        [{ id := "200000001@2000-01-01", dateDebut := ⟨2000, 1, 1⟩,
           dateFin := some ⟨1999, 12, 31⟩, siren := "200000001", nom := "A",
           nature := "CC", fiscalite := "4", population := "10",
           membres := {"00001"}, successeurs := ["200000001@2000-01-01"],
           raisonFin := some "Changement de membres" },
         { id := "200000001@2000-01-01", dateDebut := ⟨2000, 1, 1⟩,
           siren := "200000001", nom := "A", nature := "CC", fiscalite := "4",
           population := "10", membres := {"00002"},
           predecesseurs := ["200000001@2000-01-01"] }]
        2000 "200000001"
        [{ siren := "200000001", nom := "A", nature := "CC", fiscalite := "4",
           ptot := "10", nb_com := "1", insee := "1" }] =
      some (some .UPDATED,
        [{ id := "200000001@2000-01-01", dateDebut := ⟨2000, 1, 1⟩,
           dateFin := some ⟨1999, 12, 31⟩, siren := "200000001", nom := "A",
           nature := "CC", fiscalite := "4", population := "10",
           membres := {"00001"}, successeurs := ["200000001@2000-01-01"],
           raisonFin := some "Changement de membres" },
         { id := "200000001@2000-01-01", dateDebut := ⟨2000, 1, 1⟩,
           dateFin := some ⟨1999, 12, 31⟩, siren := "200000001", nom := "A",
           nature := "CC", fiscalite := "4", population := "10",
           membres := {"00002"}, predecesseurs := ["200000001@2000-01-01"],
           successeurs := ["200000001@2000-01-01"],
           raisonFin := some "Changement de membres" },
         { id := "200000001@2000-01-01", dateDebut := ⟨2000, 1, 1⟩,
           siren := "200000001", nom := "A", nature := "CC", fiscalite := "4",
           population := "10", membres := {"00001"},
           predecesseurs := ["200000001@2000-01-01"] }]) ∧
    ¬ LinkSym
        [{ id := "200000001@2000-01-01", dateDebut := ⟨2000, 1, 1⟩,
           dateFin := some ⟨1999, 12, 31⟩, siren := "200000001", nom := "A",
           nature := "CC", fiscalite := "4", population := "10",
           membres := {"00001"}, successeurs := ["200000001@2000-01-01"],
           raisonFin := some "Changement de membres" },
         { id := "200000001@2000-01-01", dateDebut := ⟨2000, 1, 1⟩,
           dateFin := some ⟨1999, 12, 31⟩, siren := "200000001", nom := "A",
           nature := "CC", fiscalite := "4", population := "10",
           membres := {"00002"}, predecesseurs := ["200000001@2000-01-01"],
           successeurs := ["200000001@2000-01-01"],
           raisonFin := some "Changement de membres" },
         { id := "200000001@2000-01-01", dateDebut := ⟨2000, 1, 1⟩,
           siren := "200000001", nom := "A", nature := "CC", fiscalite := "4",
           population := "10", membres := {"00001"},
           predecesseurs := ["200000001@2000-01-01"] }] := by
  refine ⟨by decide, by decide, by decide, ?_⟩
  intro h
  have hmp := (h ⟨1, by decide⟩ ⟨0, by decide⟩).mp (by decide)
  exact absurd hmp (by decide)

/-- Claim C5 as amended: link symmetry (together with id uniqueness,
well-directed links obeying openness, and reference validity) is
preserved by `upsert` whenever the candidate's synthetic id is fresh —
which holds on chronological runs, where a `(siren, year)` pair is
upserted at most once — and unconditionally by the closure step; and
both operations leave every already-closed version untouched in the
store, so a version closed by disappearance keeps its empty successors
forever. Without the freshness hypothesis the property fails
(see the id-collision counterexample). -/
theorem link_symmetry_preserved_fresh_ids :
    (∀ (s : Store) (year : Nat) (k : String) (rows : List Row) (epci : Epci)
       (w : Bool) (r : Option UpsertResult) (s' : Store),
       extract_epci year rows = some (epci, w) →
       epci.id ∉ ids s →
       upsert s year k rows = some (r, s') →
       WFLinks s →
       WFLinks s' ∧ (∀ v ∈ s, v.dateFin ≠ none → v ∈ s')) ∧
    (∀ (s : Store) (year : Nat) (seen : Finset String),
       WFLinks s →
       WFLinks (closeMissing s year seen).2 ∧
       (∀ v ∈ s, v.dateFin ≠ none → v ∈ (closeMissing s year seen).2)) := by
  constructor
  · intro s year k rows epci w r s' hext hfresh hup hwf
    exact ⟨upsert_preserves_wf s year k rows epci w r s' hext hfresh hup hwf,
      upsert_keeps_closed s year k rows r s' hup⟩
  · intro s year seen hwf
    exact ⟨closeMissing_preserves_wf s year seen hwf,
      closeMissing_keeps_closed s year seen⟩

/-- Witness for C5 (amended): a fresh insert into the empty store
satisfies the link invariants. -/
theorem link_symmetry_preserved_fresh_ids_witness :
    WFLinks
      [{ id := "200000001@2000-01-01", dateDebut := ⟨2000, 1, 1⟩,
         siren := "200000001", nom := "A", nature := "CC", fiscalite := "4",
         population := "10", membres := {"00001"} }] := by
  have hempty : WFLinks [] := by
    refine ⟨List.nodup_nil, ?_, ?_, ?_⟩
    · intro v hv
      exact absurd hv (List.not_mem_nil v)
    · intro v hv
      exact absurd hv (List.not_mem_nil v)
    · intro i j
      exact absurd i.2 (by simp)
  exact (link_symmetry_preserved_fresh_ids.1 [] 2000 "200000001"
    [{ siren := "200000001", nom := "A", nature := "CC", fiscalite := "4",
       ptot := "10", nb_com := "1", insee := "1" }]
    { id := "200000001@2000-01-01", dateDebut := ⟨2000, 1, 1⟩,
      siren := "200000001", nom := "A", nature := "CC", fiscalite := "4",
      population := "10", membres := {"00001"} }
    false (some .INSERTED)
    [{ id := "200000001@2000-01-01", dateDebut := ⟨2000, 1, 1⟩,
       siren := "200000001", nom := "A", nature := "CC", fiscalite := "4",
       population := "10", membres := {"00001"} }]
    (by decide) (by simp [ids]) (by decide) hempty).1

/-! ## Claim C1 -/

/-- Claim C1, counterexample to the literal reading: on a concrete
membership change the result is UPDATED and the superseded version is
closed with the source's French literal `"Changement de membres"` as its
close reason, not with `"membership change"` as the claim states. -/
theorem upsert_reason_literal_cex :
    upsert
        [{ id := "200000001@2000-01-01", dateDebut := ⟨2000, 1, 1⟩,
           siren := "200000001", nom := "A", nature := "CC", fiscalite := "4",
           population := "10", membres := {"00001"} }]
        2001 "200000001"
        [{ siren := "200000001", nom := "A", nature := "CC", fiscalite := "4",
           ptot := "10", nb_com := "1", insee := "2" }] =
      some (some .UPDATED,
        [{ id := "200000001@2000-01-01", dateDebut := ⟨2000, 1, 1⟩,
           dateFin := some ⟨2000, 12, 31⟩, siren := "200000001", nom := "A",
           nature := "CC", fiscalite := "4", population := "10",
           membres := {"00001"}, successeurs := ["200000001@2001-01-01"],
           raisonFin := some "Changement de membres" },
         { id := "200000001@2001-01-01", dateDebut := ⟨2001, 1, 1⟩,
           siren := "200000001", nom := "A", nature := "CC", fiscalite := "4",
           population := "10", membres := {"00002"},
           predecesseurs := ["200000001@2000-01-01"] }]) ∧
    (some "Changement de membres" : Option String) ≠ some "membership change" := by
  constructor
  · decide
  · decide

/-- Claim C1 as amended: `upsert` with no open version for the key
inserts the candidate unchanged (a fresh lineage: empty predecessors,
open) and reports INSERTED — regardless of any closed versions for that
key; with an open version whose member set differs it inserts the
candidate with `predecesseurs = [current.id]` and rewrites the current
version in place to `successeurs = [candidate.id]`,
`dateFin = Dec 31 (year-1)` and close reason `"Changement de membres"`
(the source literal; the claim's English `"membership change"` is
corrected to this), reporting UPDATED. -/
theorem upsert_insert_or_supersede :
    ∀ (s : Store) (year : Nat) (k : String) (rows : List Row) (epci : Epci) (w : Bool),
      extract_epci year rows = some (epci, w) →
      ((findOpen s k = none →
          upsert s year k rows = some (some .INSERTED, s ++ [epci]) ∧
          epci.predecesseurs = [] ∧ epci.successeurs = [] ∧ epci.dateFin = none) ∧
       (∀ (i : Nat) (current : Epci),
          findOpen s k = some (i, current) →
          current.membres ≠ epci.membres →
          upsert s year k rows = some (some .UPDATED,
            (s.set i { current with
                successeurs := [epci.id]
                dateFin := some ⟨year - 1, 12, 31⟩
                raisonFin := some "Changement de membres" })
              ++ [{ epci with predecesseurs := [current.id] }]))) := by
  intro s year k rows epci w hext
  obtain ⟨hdf, hpred, hsucc, _, _, _, _⟩ := extract_epci_fields year rows epci w hext
  constructor
  · intro hfo
    exact ⟨upsert_of_no_open s year k rows epci w hext hfo, hpred, hsucc, hdf⟩
  · intro i current hfo hne
    exact upsert_of_changed s year k rows epci w i current hext hfo hne

/-- Witness for C1: the INSERTED branch evaluated on a concrete one-row
year for a store with no open version. -/
theorem upsert_insert_or_supersede_witness :
    upsert [] 2000 "200000001"
        [{ siren := "200000001", nom := "A", nature := "CC", fiscalite := "4",
           ptot := "10", nb_com := "1", insee := "1" }] =
      some (some .INSERTED,
        [] ++ [{ id := "200000001@2000-01-01", dateDebut := ⟨2000, 1, 1⟩,
                 siren := "200000001", nom := "A", nature := "CC",
                 fiscalite := "4", population := "10",
                 membres := {"00001"} }]) := by
  have h := (upsert_insert_or_supersede [] 2000 "200000001"
      [{ siren := "200000001", nom := "A", nature := "CC", fiscalite := "4",
         ptot := "10", nb_com := "1", insee := "1" }]
      { id := "200000001@2000-01-01", dateDebut := ⟨2000, 1, 1⟩,
        siren := "200000001", nom := "A", nature := "CC",
        fiscalite := "4", population := "10", membres := {"00001"} }
      false (by decide)).1 (by decide)
  exact h.1

/-! ## Claim C2 -/

/-- Claim C2, counterexample to the literal reading: the end-of-year
closure does set `dateFin = Dec 31 (year-1)` and report the count, but
it sets no close reason at all — the closed version's `raisonFin` stays
absent instead of becoming `"discontinued"`. -/
theorem closeMissing_no_reason_cex :
    (closeMissing
        [{ id := "200000001@2001-01-01", dateDebut := ⟨2001, 1, 1⟩,
           siren := "200000001", nom := "A", nature := "CC", fiscalite := "4",
           population := "10", membres := {"00001"} }] 2002 ∅).1 = 1 ∧
    ((closeMissing
        [{ id := "200000001@2001-01-01", dateDebut := ⟨2001, 1, 1⟩,
           siren := "200000001", nom := "A", nature := "CC", fiscalite := "4",
           population := "10", membres := {"00001"} }] 2002 ∅).2.map
      (fun v => v.dateFin)) = [some ⟨2001, 12, 31⟩] ∧
    ((closeMissing
        [{ id := "200000001@2001-01-01", dateDebut := ⟨2001, 1, 1⟩,
           siren := "200000001", nom := "A", nature := "CC", fiscalite := "4",
           population := "10", membres := {"00001"} }] 2002 ∅).2.map
      (fun v => v.raisonFin)) = [none] ∧
    (none : Option String) ≠ some "discontinued" := by
  refine ⟨by decide, by decide, by decide, by decide⟩

/-- Claim C2 as amended: the closure step closes exactly the versions
that are open and whose siren is not in the seen set, setting only
`dateFin = Dec 31 (year-1)` on each (leaving every other field,
including the absent close reason, unchanged), leaves all other versions
untouched, and returns the number of versions so closed, which
`load_year` reports as the year's `ended` count. -/
theorem closeMissing_closes_open_unseen :
    ∀ (s : Store) (year : Nat) (seen : Finset String),
      ((closeMissing s year seen).2.length = s.length) ∧
      ((closeMissing s year seen).1 =
        (s.filter (fun v => v.dateFin.isNone && !(decide (v.siren ∈ seen)))).length) ∧
      (∀ (i : Fin s.length) (hi : (i : Nat) < (closeMissing s year seen).2.length),
        ((s.get i).dateFin = none ∧ (s.get i).siren ∉ seen →
          (closeMissing s year seen).2.get ⟨i, hi⟩ =
            { s.get i with dateFin := some ⟨year - 1, 12, 31⟩ }) ∧
        (¬((s.get i).dateFin = none ∧ (s.get i).siren ∉ seen) →
          (closeMissing s year seen).2.get ⟨i, hi⟩ = s.get i)) ∧
      (∀ (rows : List Row) (res : LoadResult) (s' : Store),
        load_year s year rows = some (res, s') →
        ∃ s₁ seen' res₁,
          processGroups year (pyGroupby rows) s ∅ {} = some (s₁, seen', res₁) ∧
          res.ended = (closeMissing s₁ year seen').1 ∧
          s' = (closeMissing s₁ year seen').2) := by
  intro s year seen
  refine ⟨by simp [closeMissing], ?_, ?_, ?_⟩
  · simp only [closeMissing, List.countP_eq_length_filter]
    congr 1
    apply List.filter_congr
    intro v _
    rw [missingFrom_eq]
  · intro i hi
    constructor
    · intro hcond
      rw [List.get_eq_getElem, List.get_eq_getElem]
      simp only [closeMissing, List.getElem_map]
      rw [if_pos ((missingFrom_iff seen _).2 (by
        rw [List.get_eq_getElem] at hcond
        exact hcond))]
    · intro hcond
      rw [List.get_eq_getElem, List.get_eq_getElem]
      simp only [closeMissing, List.getElem_map]
      rw [if_neg (by
        intro hmf
        rw [List.get_eq_getElem] at hcond
        exact hcond ((missingFrom_iff seen _).1 hmf))]
  · intro rows res s' h
    simp only [load_year] at h
    cases hp : processGroups year (pyGroupby rows) s ∅ {} with
    | none => rw [hp] at h; simp at h
    | some out =>
      obtain ⟨s₁, seen', res₁⟩ := out
      rw [hp] at h
      simp only [Option.some.injEq] at h
      refine ⟨s₁, seen', res₁, rfl, ?_, ?_⟩
      · have := congrArg Prod.fst h
        simp only at this
        rw [← this]
      · exact (congrArg Prod.snd h).symm

/-- Witness for C2 (amended): on a store with one open version, year
2002 and an empty seen set, the closure yields the version closed with
`dateFin = 2001-12-31` and nothing else changed. -/
theorem closeMissing_closes_open_unseen_witness :
    (closeMissing
        [{ id := "200000001@2001-01-01", dateDebut := ⟨2001, 1, 1⟩,
           siren := "200000001", nom := "A", nature := "CC", fiscalite := "4",
           population := "10", membres := {"00001"} }] 2002 ∅).2.get ⟨0, by decide⟩ =
      { id := "200000001@2001-01-01", dateDebut := ⟨2001, 1, 1⟩,
        dateFin := some ⟨2001, 12, 31⟩,
        siren := "200000001", nom := "A", nature := "CC", fiscalite := "4",
        population := "10", membres := {"00001"} } := by
  have h := ((closeMissing_closes_open_unseen
      [{ id := "200000001@2001-01-01", dateDebut := ⟨2001, 1, 1⟩,
         siren := "200000001", nom := "A", nature := "CC", fiscalite := "4",
         population := "10", membres := {"00001"} }] 2002 ∅).2.2.1
      ⟨0, by decide⟩ (by decide)).1 (by constructor <;> decide)
  exact h

/-! ## Claim C3 -/

/-- Claim C3, divergence of the code from the contract: the year
processor's grouping (`itertools.groupby`) splits a natural key whose
rows are not contiguous into several groups — here siren `"100"` in rows
1 and 3 yields two separate groups (hence two upsert calls), where
grouping by key regardless of order would yield one. -/
theorem pyGroupby_splits_noncontiguous_key :
    (pyGroupby
      [{ siren := "100", nom := "A", nature := "CC", fiscalite := "4",
         ptot := "10", nb_com := "1", insee := "1" },
       { siren := "200", nom := "B", nature := "CC", fiscalite := "4",
         ptot := "10", nb_com := "1", insee := "2" },
       { siren := "100", nom := "A", nature := "CC", fiscalite := "4",
         ptot := "10", nb_com := "1", insee := "3" }]).map Prod.fst =
      ["100", "200", "100"] ∧
    ((pyGroupby
      [{ siren := "100", nom := "A", nature := "CC", fiscalite := "4",
         ptot := "10", nb_com := "1", insee := "1" },
       { siren := "200", nom := "B", nature := "CC", fiscalite := "4",
         ptot := "10", nb_com := "1", insee := "2" },
       { siren := "100", nom := "A", nature := "CC", fiscalite := "4",
         ptot := "10", nb_com := "1", insee := "3" }]).map Prod.fst).count "100" = 2 := by
  constructor
  · decide
  · decide

/-! ## Claim C4 -/

/-- Claim C4: after any year's processing (all upserts followed by the
closure step) at most one version per natural key is open —
`load_year` preserves the invariant, and every completed run from the
empty store satisfies it. -/
theorem at_most_one_open_after_each_year :
    (∀ (s : Store) (year : Nat) (rows : List Row) (res : LoadResult) (s' : Store),
      AtMostOneOpen s → load_year s year rows = some (res, s') → AtMostOneOpen s') ∧
    (∀ (runs : List (Nat × List Row)) (s : Store),
      runAll runs [] = some s → AtMostOneOpen s) := by
  constructor
  · intro s year rows res s' inv h
    exact load_year_preserves_amoo s year rows res s' h inv
  · intro runs s h
    refine runAll_preserves_amoo runs [] s ?_ h
    intro k i j
    exact absurd i.2 (by simp)

/-- Witness for C4: a one-year run on a concrete input leaves a store
satisfying the invariant. -/
theorem at_most_one_open_after_each_year_witness :
    AtMostOneOpen
      [{ id := "200000001@2000-01-01", dateDebut := ⟨2000, 1, 1⟩,
         siren := "200000001", nom := "A", nature := "CC", fiscalite := "4",
         population := "10", membres := {"00001"} }] := by
  exact at_most_one_open_after_each_year.2
    [(2000, [{ siren := "200000001", nom := "A", nature := "CC", fiscalite := "4",
               ptot := "10", nb_com := "1", insee := "1" }])]
    [{ id := "200000001@2000-01-01", dateDebut := ⟨2000, 1, 1⟩,
       siren := "200000001", nom := "A", nature := "CC", fiscalite := "4",
       population := "10", membres := {"00001"} }]
    (by decide)

/-! ## Claim C6 -/

/-- Claim C6: `upsert` is a no-op when the open version's member set
equals the candidate's — the store is unchanged and the result is
neither INSERTED nor UPDATED (Python `None`) — and consequently a second
`upsert` with the identical rows in the same year is always a no-op, so
no second version is created. -/
theorem upsert_noop_on_equal_members :
    (∀ (s : Store) (year : Nat) (k : String) (rows : List Row) (epci : Epci) (w : Bool)
       (i : Nat) (current : Epci),
       extract_epci year rows = some (epci, w) →
       findOpen s k = some (i, current) →
       current.membres = epci.membres →
       upsert s year k rows = some (none, s)) ∧
    (∀ (s : Store) (year : Nat) (k : String) (rows : List Row) (epci : Epci) (w : Bool)
       (r : Option UpsertResult) (s' : Store),
       extract_epci year rows = some (epci, w) →
       epci.siren = k →
       AtMostOneOpen s →
       upsert s year k rows = some (r, s') →
       upsert s' year k rows = some (none, s')) := by
  constructor
  · intro s year k rows epci w i current hext hfo heq
    exact upsert_of_unchanged s year k rows epci w i current hext hfo heq
  · intro s year k rows epci w r s' hext hsiren inv hup
    obtain ⟨hdf, _, _, _, _, _, _⟩ := extract_epci_fields year rows epci w hext
    have hopen_epci : openFor k epci = true := (openFor_iff k epci).2 ⟨hsiren, hdf⟩
    cases hfo : findOpen s k with
    | none =>
      rw [upsert_of_no_open s year k rows epci w hext hfo] at hup
      have hs' : s' = s ++ [epci] := (congrArg Prod.snd (Option.some.inj hup)).symm
      subst hs'
      have hfo' : findOpen (s ++ [epci]) k = some (s.length, epci) := by
        rw [findOpen_append_of_none s [epci] k hfo]
        simp [findOpen, hopen_epci]
      exact upsert_of_unchanged (s ++ [epci]) year k rows epci w s.length epci hext hfo' rfl
    | some p =>
      obtain ⟨i₀, current⟩ := p
      obtain ⟨hi₀, hget₀, hopen₀⟩ := findOpen_some_spec s k i₀ current hfo
      by_cases hmem : current.membres = epci.membres
      · rw [upsert_of_unchanged s year k rows epci w i₀ current hext hfo hmem] at hup
        have hs' : s' = s := (congrArg Prod.snd (Option.some.inj hup)).symm
        rw [hs']
        exact upsert_of_unchanged s year k rows epci w i₀ current hext hfo hmem
      · rw [upsert_of_changed s year k rows epci w i₀ current hext hfo hmem] at hup
        have hs' : s' = (s.set i₀ { current with
            successeurs := [epci.id]
            dateFin := some ⟨year - 1, 12, 31⟩
            raisonFin := some "Changement de membres" })
          ++ [{ epci with predecesseurs := [current.id] }] :=
          (congrArg Prod.snd (Option.some.inj hup)).symm
        subst hs'
        have hnone : findOpen (s.set i₀ { current with
            successeurs := [epci.id]
            dateFin := some ⟨year - 1, 12, 31⟩
            raisonFin := some "Changement de membres" }) k = none := by
          apply findOpen_eq_none
          intro idx
          rw [List.get_eq_getElem]
          have hlt : (idx : Nat) < s.length := by simpa using idx.2
          rw [List.getElem_set]
          by_cases hc : i₀ = (idx : Nat)
          · rw [if_pos hc]
            simp [openFor]
          · rw [if_neg hc]
            by_contra hcon
            have hcon' : openFor k (s.get ⟨idx, hlt⟩) = true := by
              rw [List.get_eq_getElem]
              simpa using hcon
            have heq := inv k ⟨idx, hlt⟩ ⟨i₀, hi₀⟩ hcon' (by rw [hget₀]; exact hopen₀)
            exact hc (by simpa using heq.symm)
        have hfo' : findOpen ((s.set i₀ { current with
            successeurs := [epci.id]
            dateFin := some ⟨year - 1, 12, 31⟩
            raisonFin := some "Changement de membres" })
              ++ [{ epci with predecesseurs := [current.id] }]) k =
            some ((s.set i₀ { current with
                successeurs := [epci.id]
                dateFin := some ⟨year - 1, 12, 31⟩
                raisonFin := some "Changement de membres" }).length,
              { epci with predecesseurs := [current.id] }) := by
          rw [findOpen_append_of_none _ _ k hnone]
          have hN : openFor k { epci with predecesseurs := [current.id] } = true := hopen_epci
          simp [findOpen, hN]
        exact upsert_of_unchanged _ year k rows epci w _ _ hext hfo' rfl

/-- Witness for C6: after a concrete INSERTED, re-upserting the same
rows in the same year is a no-op. -/
theorem upsert_noop_on_equal_members_witness :
    upsert
        [{ id := "200000001@2000-01-01", dateDebut := ⟨2000, 1, 1⟩,
           siren := "200000001", nom := "A", nature := "CC", fiscalite := "4",
           population := "10", membres := {"00001"} }]
        2000 "200000001"
        [{ siren := "200000001", nom := "A", nature := "CC", fiscalite := "4",
           ptot := "10", nb_com := "1", insee := "1" }] =
      some (none,
        [{ id := "200000001@2000-01-01", dateDebut := ⟨2000, 1, 1⟩,
           siren := "200000001", nom := "A", nature := "CC", fiscalite := "4",
           population := "10", membres := {"00001"} }]) := by
  exact upsert_noop_on_equal_members.2 [] 2000 "200000001"
    [{ siren := "200000001", nom := "A", nature := "CC", fiscalite := "4",
       ptot := "10", nb_com := "1", insee := "1" }]
    { id := "200000001@2000-01-01", dateDebut := ⟨2000, 1, 1⟩,
      siren := "200000001", nom := "A", nature := "CC", fiscalite := "4",
      population := "10", membres := {"00001"} }
    false (some .INSERTED)
    [{ id := "200000001@2000-01-01", dateDebut := ⟨2000, 1, 1⟩,
       siren := "200000001", nom := "A", nature := "CC", fiscalite := "4",
       population := "10", membres := {"00001"} }]
    (by decide) (by decide)
    (by intro k i j hi hj; exact absurd i.2 (by simp))
    (by decide)

/-! ## Claim C7 -/

/-- Claim C7: for a nonempty row group whose declared count parses,
extraction always succeeds, returns the candidate built from the actual
deduplicated member set, and flags a warning exactly when the declared
count differs from the set's cardinality — so duplicate member rows
alone (row count ≠ set size with matching declared count) never trigger
the warning. -/
theorem extract_warns_on_count_mismatch :
    ∀ (year : Nat) (r : Row) (rest : List Row) (n : Int),
      pyToInt r.nb_com = some n →
      ∃ epci, extract_epci year (r :: rest) =
          some (epci, decide (n ≠ ((membersOf (r :: rest)).card : Int))) ∧
        epci.membres = membersOf (r :: rest) := by
  intro year r rest n hp
  simp only [extract_epci]
  rw [hp]
  exact ⟨_, rfl, rfl⟩

/-- Witness for C7: declared count 3 against two distinct member codes
coming from three rows (one duplicated) — extraction succeeds on the
2-element set and the warning flag is raised; the flag compares the
declared count with the set cardinality, not the row count. -/
theorem extract_warns_on_count_mismatch_witness :
    pyToInt "3" = some 3 ∧
    (membersOf
      [{ siren := "100", nom := "A", nature := "CC", fiscalite := "4",
         ptot := "10", nb_com := "3", insee := "1" },
       { siren := "100", nom := "A", nature := "CC", fiscalite := "4",
         ptot := "10", nb_com := "3", insee := "2" },
       { siren := "100", nom := "A", nature := "CC", fiscalite := "4",
         ptot := "10", nb_com := "3", insee := "2" }]).card = 2 ∧
    ∃ epci, extract_epci 2000
        [{ siren := "100", nom := "A", nature := "CC", fiscalite := "4",
           ptot := "10", nb_com := "3", insee := "1" },
         { siren := "100", nom := "A", nature := "CC", fiscalite := "4",
           ptot := "10", nb_com := "3", insee := "2" },
         { siren := "100", nom := "A", nature := "CC", fiscalite := "4",
           ptot := "10", nb_com := "3", insee := "2" }] =
        some (epci, decide ((3 : Int) ≠ ((membersOf
          [{ siren := "100", nom := "A", nature := "CC", fiscalite := "4",
             ptot := "10", nb_com := "3", insee := "1" },
           { siren := "100", nom := "A", nature := "CC", fiscalite := "4",
             ptot := "10", nb_com := "3", insee := "2" },
           { siren := "100", nom := "A", nature := "CC", fiscalite := "4",
             ptot := "10", nb_com := "3", insee := "2" }]).card : Int))) ∧
      epci.membres = membersOf
        [{ siren := "100", nom := "A", nature := "CC", fiscalite := "4",
           ptot := "10", nb_com := "3", insee := "1" },
         { siren := "100", nom := "A", nature := "CC", fiscalite := "4",
           ptot := "10", nb_com := "3", insee := "2" },
         { siren := "100", nom := "A", nature := "CC", fiscalite := "4",
           ptot := "10", nb_com := "3", insee := "2" }] := by
  refine ⟨by decide, by decide, ?_⟩
  exact extract_warns_on_count_mismatch 2000
    { siren := "100", nom := "A", nature := "CC", fiscalite := "4",
      ptot := "10", nb_com := "3", insee := "1" }
    [{ siren := "100", nom := "A", nature := "CC", fiscalite := "4",
       ptot := "10", nb_com := "3", insee := "2" },
     { siren := "100", nom := "A", nature := "CC", fiscalite := "4",
       ptot := "10", nb_com := "3", insee := "2" }]
    3 (by decide)

/-! ## Claim C9 -/

/-- Claim C9, frame property of the membership-change branch: when
`upsert` reports UPDATED, the store becomes the old store with only the
superseded open version rewritten — and only in its `successeurs`,
`dateFin` and `raisonFin` fields — plus the new candidate appended;
every other position of the store is untouched. -/
theorem upsert_updated_frame :
    ∀ (s : Store) (year : Nat) (k : String) (rows : List Row) (s' : Store),
      upsert s year k rows = some (some .UPDATED, s') →
      ∃ (epci : Epci) (w : Bool) (i : Nat) (current : Epci),
        extract_epci year rows = some (epci, w) ∧
        findOpen s k = some (i, current) ∧
        i < s.length ∧
        s' = (s.set i { current with
            successeurs := [epci.id]
            dateFin := some ⟨year - 1, 12, 31⟩
            raisonFin := some "Changement de membres" })
          ++ [{ epci with predecesseurs := [current.id] }] ∧
        (∀ (j : Fin s.length), (j : Nat) ≠ i →
          ∀ hj : (j : Nat) < s'.length, s'.get ⟨j, hj⟩ = s.get j) ∧
        ({ current with
            successeurs := [epci.id]
            dateFin := some ⟨year - 1, 12, 31⟩
            raisonFin := some "Changement de membres" } : Epci).id = current.id ∧
        ({ current with
            successeurs := [epci.id]
            dateFin := some ⟨year - 1, 12, 31⟩
            raisonFin := some "Changement de membres" } : Epci).siren = current.siren ∧
        ({ current with
            successeurs := [epci.id]
            dateFin := some ⟨year - 1, 12, 31⟩
            raisonFin := some "Changement de membres" } : Epci).dateDebut = current.dateDebut ∧
        ({ current with
            successeurs := [epci.id]
            dateFin := some ⟨year - 1, 12, 31⟩
            raisonFin := some "Changement de membres" } : Epci).membres = current.membres ∧
        ({ current with
            successeurs := [epci.id]
            dateFin := some ⟨year - 1, 12, 31⟩
            raisonFin := some "Changement de membres" } : Epci).nom = current.nom ∧
        ({ current with
            successeurs := [epci.id]
            dateFin := some ⟨year - 1, 12, 31⟩
            raisonFin := some "Changement de membres" } : Epci).nature = current.nature ∧
        ({ current with
            successeurs := [epci.id]
            dateFin := some ⟨year - 1, 12, 31⟩
            raisonFin := some "Changement de membres" } : Epci).fiscalite = current.fiscalite ∧
        ({ current with
            successeurs := [epci.id]
            dateFin := some ⟨year - 1, 12, 31⟩
            raisonFin := some "Changement de membres" } : Epci).population = current.population ∧
        ({ current with
            successeurs := [epci.id]
            dateFin := some ⟨year - 1, 12, 31⟩
            raisonFin := some "Changement de membres" } : Epci).predecesseurs = current.predecesseurs := by
  intro s year k rows s' hup
  cases hext : extract_epci year rows with
  | none =>
    unfold upsert at hup
    rw [hext] at hup
    simp at hup
  | some ew =>
    obtain ⟨epci, w⟩ := ew
    cases hfo : findOpen s k with
    | none =>
      rw [upsert_of_no_open s year k rows epci w hext hfo] at hup
      have := congrArg Prod.fst (Option.some.inj hup)
      simp at this
    | some p =>
      obtain ⟨i₀, current⟩ := p
      obtain ⟨hi₀, hget₀, hopen₀⟩ := findOpen_some_spec s k i₀ current hfo
      by_cases hmem : current.membres = epci.membres
      · rw [upsert_of_unchanged s year k rows epci w i₀ current hext hfo hmem] at hup
        have := congrArg Prod.fst (Option.some.inj hup)
        simp at this
      · rw [upsert_of_changed s year k rows epci w i₀ current hext hfo hmem] at hup
        have hs' : s' = (s.set i₀ { current with
            successeurs := [epci.id]
            dateFin := some ⟨year - 1, 12, 31⟩
            raisonFin := some "Changement de membres" })
          ++ [{ epci with predecesseurs := [current.id] }] :=
          (congrArg Prod.snd (Option.some.inj hup)).symm
        refine ⟨epci, w, i₀, current, rfl, rfl, hi₀, hs', ?_,
          rfl, rfl, rfl, rfl, rfl, rfl, rfl, rfl, rfl⟩
        intro j hne hj
        subst hs'
        rw [List.get_eq_getElem, List.get_eq_getElem]
        have hjl : (j : Nat) < (s.set i₀ { current with
            successeurs := [epci.id]
            dateFin := some ⟨year - 1, 12, 31⟩
            raisonFin := some "Changement de membres" }).length := by
          simp
        rw [List.getElem_append_left hjl, List.getElem_set,
          if_neg (fun h => hne h.symm)]

/-- Witness for C9: the frame property instantiated on a concrete
one-version store undergoing a membership change. -/
theorem upsert_updated_frame_witness :
    upsert
        [{ id := "200000001@2000-01-01", dateDebut := ⟨2000, 1, 1⟩,
           siren := "200000001", nom := "A", nature := "CC", fiscalite := "4",
           population := "10", membres := {"00001"} }]
        2001 "200000001"
        [{ siren := "200000001", nom := "A", nature := "CC", fiscalite := "4",
           ptot := "10", nb_com := "1", insee := "2" }] =
      some (some .UPDATED,
        [{ id := "200000001@2000-01-01", dateDebut := ⟨2000, 1, 1⟩,
           dateFin := some ⟨2000, 12, 31⟩, siren := "200000001", nom := "A",
           nature := "CC", fiscalite := "4", population := "10",
           membres := {"00001"}, successeurs := ["200000001@2001-01-01"],
           raisonFin := some "Changement de membres" },
         { id := "200000001@2001-01-01", dateDebut := ⟨2001, 1, 1⟩,
           siren := "200000001", nom := "A", nature := "CC", fiscalite := "4",
           population := "10", membres := {"00002"},
           predecesseurs := ["200000001@2000-01-01"] }]) ∧
    ∃ (epci : Epci) (w : Bool) (i : Nat) (current : Epci),
      extract_epci 2001
          [{ siren := "200000001", nom := "A", nature := "CC", fiscalite := "4",
             ptot := "10", nb_com := "1", insee := "2" }] = some (epci, w) ∧
      findOpen
          [{ id := "200000001@2000-01-01", dateDebut := ⟨2000, 1, 1⟩,
             siren := "200000001", nom := "A", nature := "CC", fiscalite := "4",
             population := "10", membres := {"00001"} }] "200000001" =
        some (i, current) ∧
      i < 1 := by
  refine ⟨by decide, ?_⟩
  obtain ⟨epci, w, i, current, h1, h2, h3, _⟩ :=
    upsert_updated_frame
      [{ id := "200000001@2000-01-01", dateDebut := ⟨2000, 1, 1⟩,
         siren := "200000001", nom := "A", nature := "CC", fiscalite := "4",
         population := "10", membres := {"00001"} }]
      2001 "200000001"
      [{ siren := "200000001", nom := "A", nature := "CC", fiscalite := "4",
         ptot := "10", nb_com := "1", insee := "2" }]
      [{ id := "200000001@2000-01-01", dateDebut := ⟨2000, 1, 1⟩,
         dateFin := some ⟨2000, 12, 31⟩, siren := "200000001", nom := "A",
         nature := "CC", fiscalite := "4", population := "10",
         membres := {"00001"}, successeurs := ["200000001@2001-01-01"],
         raisonFin := some "Changement de membres" },
       { id := "200000001@2001-01-01", dateDebut := ⟨2001, 1, 1⟩,
         siren := "200000001", nom := "A", nature := "CC", fiscalite := "4",
         population := "10", membres := {"00002"},
         predecesseurs := ["200000001@2000-01-01"] }]
      (by decide)
  exact ⟨epci, w, i, current, h1, h2, h3⟩

/-! ## Claim C10 -/

/-- Claim C10: extraction is partial on malformed declared counts — a
non-integer `nb_com` on the group's first row makes extraction (and with
it the whole year run) abort — while a nonempty group whose first row's
count parses always extracts a candidate without raising. -/
theorem extract_partial_on_malformed_count :
    (extract_epci 2000
       [{ siren := "100", nom := "A", nature := "CC", fiscalite := "4",
          ptot := "10", nb_com := "douze", insee := "1" }] = none ∧
     load_year [] 2000
       [{ siren := "100", nom := "A", nature := "CC", fiscalite := "4",
          ptot := "10", nb_com := "douze", insee := "1" }] = none) ∧
    (∀ (year : Nat) (r : Row) (rest : List Row) (n : Int),
       pyToInt r.nb_com = some n →
       ∃ epci w, extract_epci year (r :: rest) = some (epci, w)) := by
  refine ⟨⟨by decide, by decide⟩, ?_⟩
  intro year r rest n hp
  simp only [extract_epci]
  rw [hp]
  exact ⟨_, _, rfl⟩

/-- Witness for C10: a parsable declared count on a concrete nonempty
group yields a successful extraction. -/
theorem extract_partial_on_malformed_count_witness :
    pyToInt "2" = some 2 ∧
    ∃ epci w, extract_epci 2001
        [{ siren := "100", nom := "A", nature := "CC", fiscalite := "4",
           ptot := "10", nb_com := "2", insee := "1" }] = some (epci, w) := by
  refine ⟨by decide, ?_⟩
  exact extract_partial_on_malformed_count.2 2001
    { siren := "100", nom := "A", nature := "CC", fiscalite := "4",
      ptot := "10", nb_com := "2", insee := "1" } [] 2 (by decide)

/-! ## Claim C8 -/

theorem char_ofNat_digit (m : Nat) (hm : m < 10) :
    isDigitChar (Char.ofNat (48 + m)) = true := by
  interval_cases m <;> decide

theorem natToDigitsAux_digits : ∀ (fuel n : Nat), n < fuel →
    ∀ c ∈ natToDigitsAux fuel n, isDigitChar c = true := by
  intro fuel
  induction fuel with
  | zero =>
    intro n h
    exact absurd h (Nat.not_lt_zero n)
  | succ f ih =>
    intro n h c hc
    simp only [natToDigitsAux] at hc
    by_cases h10 : n < 10
    · rw [if_pos h10, List.mem_singleton] at hc
      subst hc
      exact char_ofNat_digit n h10
    · rw [if_neg h10] at hc
      rcases List.mem_append.1 hc with h2 | h2
      · refine ih (n / 10) ?_ c h2
        have hlt : n / 10 < n := Nat.div_lt_self (by omega) (by omega)
        omega
      · rw [List.mem_singleton] at h2
        subst h2
        exact char_ofNat_digit (n % 10) (Nat.mod_lt n (by omega))

theorem natToDigitsAux_length : ∀ (k fuel n : Nat), 0 < k → n < 10 ^ k → n < fuel →
    (natToDigitsAux fuel n).length ≤ k := by
  intro k
  induction k with
  | zero =>
    intro fuel n h
    omega
  | succ k ih =>
    intro fuel n hk hnk hnf
    cases fuel with
    | zero => omega
    | succ f =>
      simp only [natToDigitsAux]
      by_cases h10 : n < 10
      · rw [if_pos h10]
        simp
      · rw [if_neg h10]
        rw [List.length_append, List.length_singleton]
        have hk0 : 0 < k := by
          by_contra hcon
          have hkz : k = 0 := by omega
          subst hkz
          simp at hnk
          omega
        have h1 : n / 10 < 10 ^ k := by
          rw [Nat.div_lt_iff_lt_mul (by omega : 0 < 10)]
          calc n < 10 ^ (k + 1) := hnk
          _ = 10 ^ k * 10 := by ring
        have h2 : n / 10 < f := by
          have hd : n / 10 < n := Nat.div_lt_self (by omega) (by omega)
          omega
        have h3 := ih f (n / 10) hk0 h1 h2
        omega

theorem padZeros_length (k : Nat) (cs : List Char) (h : cs.length ≤ k) :
    (padZeros k cs).length = k := by
  simp only [padZeros, List.length_append, List.length_replicate]
  omega

theorem padZeros_digits (k : Nat) (cs : List Char)
    (h : ∀ c ∈ cs, isDigitChar c = true) :
    ∀ c ∈ padZeros k cs, isDigitChar c = true := by
  intro c hc
  rcases List.mem_append.1 hc with h2 | h2
  · have hz : c = '0' := List.eq_of_mem_replicate h2
    subst hz
    decide
  · exact h c h2

theorem iso_checker (A B C : List Char)
    (hA : A.length = 4) (hB : B.length = 2) (hC : C.length = 2)
    (dA : ∀ c ∈ A, isDigitChar c = true)
    (dB : ∀ c ∈ B, isDigitChar c = true)
    (dC : ∀ c ∈ C, isDigitChar c = true) :
    isISO8601 (String.mk (A ++ '-' :: (B ++ '-' :: C))) = true := by
  rcases A with _ | ⟨a1, A⟩
  · simp at hA
  rcases A with _ | ⟨a2, A⟩
  · simp at hA
  rcases A with _ | ⟨a3, A⟩
  · simp at hA
  rcases A with _ | ⟨a4, A⟩
  · simp at hA
  rcases A with _ | ⟨a5, A⟩
  case cons.cons.cons.cons.cons =>
    simp only [List.length_cons] at hA
    omega
  rcases B with _ | ⟨b1, B⟩
  · simp at hB
  rcases B with _ | ⟨b2, B⟩
  · simp at hB
  rcases B with _ | ⟨b3, B⟩
  case cons.cons.cons =>
    simp only [List.length_cons] at hB
    omega
  rcases C with _ | ⟨c1, C⟩
  · simp at hC
  rcases C with _ | ⟨c2, C⟩
  · simp at hC
  rcases C with _ | ⟨c3, C⟩
  case cons.cons.cons =>
    simp only [List.length_cons] at hC
    omega
  have e1 : isDigitChar a1 = true := dA a1 (by simp)
  have e2 : isDigitChar a2 = true := dA a2 (by simp)
  have e3 : isDigitChar a3 = true := dA a3 (by simp)
  have e4 : isDigitChar a4 = true := dA a4 (by simp)
  have e5 : isDigitChar b1 = true := dB b1 (by simp)
  have e6 : isDigitChar b2 = true := dB b2 (by simp)
  have e7 : isDigitChar c1 = true := dC c1 (by simp)
  have e8 : isDigitChar c2 = true := dC c2 (by simp)
  show (isDigitChar a1 && isDigitChar a2 && isDigitChar a3 && isDigitChar a4 &&
    ('-' == '-') && isDigitChar b1 && isDigitChar b2 && ('-' == '-') &&
    isDigitChar c1 && isDigitChar c2) = true
  simp [e1, e2, e3, e4, e5, e6, e7, e8]

/-- Claim C8: exporting is a pure function of the store state (two
exports of equal states are identical); every member set is serialized
as a duplicate-free list in a fixed (sorted) order containing exactly
the set's members; and every date within `datetime.date`'s range is
serialized as an ISO-8601 calendar date `YYYY-MM-DD`. -/
theorem dump_deterministic_sorted_iso :
    (∀ s t : Store, s = t → dump_to s = dump_to t) ∧
    (∀ m : Finset String, (serializeSet m).Sorted (· ≤ ·) ∧
      (serializeSet m).Nodup ∧ ∀ x, x ∈ serializeSet m ↔ x ∈ m) ∧
    (∀ d : PyDate, d.year ≤ 9999 → d.month ≤ 99 → d.day ≤ 99 →
      isISO8601 (isoformat d) = true) := by
  refine ⟨?_, ?_, ?_⟩
  · intro s t h
    rw [h]
  · intro m
    exact ⟨Finset.sort_sorted _ _, Finset.sort_nodup _ _,
      fun x => Finset.mem_sort _⟩
  · intro d hy hm hd
    unfold isoformat
    have hpow4 : (10 : Nat) ^ 4 = 10000 := by norm_num
    have hpow2 : (10 : Nat) ^ 2 = 100 := by norm_num
    apply iso_checker
    · exact padZeros_length _ _
        (natToDigitsAux_length 4 (d.year + 1) d.year (by omega) (by omega) (by omega))
    · exact padZeros_length _ _
        (natToDigitsAux_length 2 (d.month + 1) d.month (by omega) (by omega) (by omega))
    · exact padZeros_length _ _
        (natToDigitsAux_length 2 (d.day + 1) d.day (by omega) (by omega) (by omega))
    · exact padZeros_digits _ _ (natToDigitsAux_digits (d.year + 1) d.year (by omega))
    · exact padZeros_digits _ _ (natToDigitsAux_digits (d.month + 1) d.month (by omega))
    · exact padZeros_digits _ _ (natToDigitsAux_digits (d.day + 1) d.day (by omega))

/-- Witness for C8: determinism on a concrete store and the ISO shape of
a concrete serialized date. -/
theorem dump_deterministic_sorted_iso_witness :
    dump_to [] = dump_to [] ∧
    ((2001 : Nat) ≤ 9999 ∧ isISO8601 (isoformat ⟨2001, 12, 31⟩) = true) := by
  refine ⟨dump_deterministic_sorted_iso.1 [] [] rfl, by decide, ?_⟩
  exact dump_deterministic_sorted_iso.2.2 ⟨2001, 12, 31⟩ (by decide) (by decide) (by decide)

end Historize
